import Mathlib

/-!
WHIP output (obs-webrtc): a shallow embedding and its verified properties.

Source files embedded here:
* `plugins/obs-webrtc/whip-output.h`   (`parse_h264_nals`, `b64_encode`, `trim_string`,
  `curl_headerfunction`)
* `plugins/obs-webrtc/whip-output.cpp` (`WHIPOutput::Init`, `Setup`, `Connect`, `SendDelete`,
  `StartThread`, `StopThread`, `Stop`, `Data`)

Bytes are natural numbers, byte buffers are `List Nat`, C++ strings are `List Char`.
A read through a pointer outside the buffer it points into is undefined behaviour in C++; the
embedding makes such a read an explicit error instead of inventing a value for it.
-/

namespace WHIP

/-! ## `parse_h264_nals` (whip-output.h) -/

/-- Ways in which a run of the model can fail to produce a value: a read outside the object
read from (undefined behaviour in C++), or exhaustion of the iteration budget of the model. -/
inductive Fault where
  | outOfBounds
  | outOfFuel
deriving DecidableEq, Repr

deriving instance DecidableEq for Except

/-- The read `p[k]` where `p` points at offset `i - k` of the buffer: the byte at index `i`
when `i` is inside the buffer, an out-of-bounds error otherwise. -/
def readByte (data : List Nat) (i : Nat) : Except Fault Nat :=
  match data[i]? with
  | some b => .ok b
  | none => .error .outOfBounds

/-- The loop condition
`current[0] == 0x00 && current[1] == 0x00 &&
 (current[2] == 0x01 || (current[2] == 0x00 && current[3] == 0x01))`
with the short-circuit evaluation order of `&&` and `||`: a byte is read only when the
operands to its left make its value matter. -/
def isStartCode (data : List Nat) (current : Nat) : Except Fault Bool :=
  match readByte data current with
  | .error e => .error e
  | .ok c0 =>
    if c0 ≠ 0 then .ok false else
    match readByte data (current + 1) with
    | .error e => .error e
    | .ok c1 =>
      if c1 ≠ 0 then .ok false else
      match readByte data (current + 2) with
      | .error e => .error e
      | .ok c2 =>
        if c2 = 1 then .ok true else
        if c2 ≠ 0 then .ok false else
        match readByte data (current + 3) with
        | .error e => .error e
        | .ok c3 => .ok (decide (c3 = 1))

/-- The vector constructed by `nalus.emplace_back(start, start + nalSize)` with
`nalSize = current - start`: the bytes at indices `start .. current - 1`. -/
def nalRange (data : List Nat) (start current : Nat) : List Nat :=
  (data.drop start).take (current - start)

/-- The registers of the `while` loop of `parse_h264_nals`: the pointers `start` and `current`
as offsets from `data`, and the vector `nalus` built so far. -/
structure ParseState where
  start : Nat
  current : Nat
  nalus : List (List Nat)
deriving DecidableEq, Repr

/-- One iteration of the body of `while (current < end)`. -/
def parseStep (data : List Nat) (st : ParseState) : Except Fault ParseState :=
  match isStartCode data st.current with
  | .error e => .error e
  | .ok true =>
    -- if (start < current) nalus.emplace_back(start, start + (current - start));
    let nalus := if st.start < st.current then
        st.nalus ++ [nalRange data st.start st.current] else st.nalus
    -- start = current + 3; if (current[2] == 0x00) start++;
    match readByte data (st.current + 2) with
    | .error e => .error e
    | .ok c2 =>
      let start := if c2 = 0 then st.current + 3 + 1 else st.current + 3
      -- current += 3; if (current[0] == 0x00) current++;
      match readByte data (st.current + 3) with
      | .error e => .error e
      | .ok c0 =>
        let current := if c0 = 0 then st.current + 3 + 1 else st.current + 3
        .ok { start := start, current := current, nalus := nalus }
  | .ok false =>
    -- current++;
    .ok { st with current := st.current + 1 }

/-- The loop `while (current < end) { ... }`, with an iteration budget `fuel`. -/
def parseLoop (data : List Nat) : Nat → ParseState → Except Fault ParseState
  | 0, st => if st.current < data.length then .error .outOfFuel else .ok st
  | fuel + 1, st =>
    if st.current < data.length then
      match parseStep data st with
      | .ok st1 => parseLoop data fuel st1
      | .error e => .error e
    else .ok st

/-- The statements after the loop:
`size_t nalSize = current - start; if (nalSize > 0) nalus.emplace_back(start, start + nalSize);`
The difference is a `size_t`: when `start` is past `current` it wraps to a huge positive
value and the construction of the vector reads outside the buffer. -/
def parseFinish (data : List Nat) (st : ParseState) : Except Fault (List (List Nat)) :=
  if st.current = st.start then .ok st.nalus
  else if st.start < st.current ∧ st.current ≤ data.length then
    .ok (st.nalus ++ [nalRange data st.start st.current])
  else .error .outOfBounds

/-- The function `parse_h264_nals(data, length)` on the buffer `data` of `length = data.length`
bytes. Every iteration advances `current` by at least one, so `data.length` iterations
suffice (see `parse_h264_nals_fuel`). -/
def parse_h264_nals (data : List Nat) : Except Fault (List (List Nat)) :=
  match parseLoop data data.length { start := 0, current := 0, nalus := [] } with
  | .ok st => parseFinish data st
  | .error e => .error e

/-- The loop followed by the final statements, from an arbitrary loop state. -/
def parseRun (data : List Nat) (fuel : Nat) (st : ParseState) :
    Except Fault (List (List Nat)) :=
  match parseLoop data fuel st with
  | .ok st1 => parseFinish data st1
  | .error e => .error e

/-! ### Annex-B byte streams: the input format of the parser -/

/-- The two start codes: `00 00 00 01` (four bytes) and `00 00 01` (three bytes). -/
def startCode (four : Bool) : List Nat := if four then [0, 0, 0, 1] else [0, 0, 1]

/-- The buffer formed by prefixing each unit with a start code (four-byte when the flag is
set, three-byte otherwise) and concatenating the results. -/
def annexB : List (Bool × List Nat) → List Nat
  | [] => []
  | s :: rest => startCode s.1 ++ s.2 ++ annexB rest

/-- A well-formed NAL unit: non-empty, without the byte pattern `00 00 01` inside it, and not
ending in a `0x00` byte. -/
def WellFormedNal (u : List Nat) : Prop :=
  u ≠ [] ∧ ¬ [0, 0, 1] <:+: u ∧ u.getLast? ≠ some 0

instance : DecidablePred WellFormedNal := fun u => by unfold WellFormedNal; infer_instance

/-- A buffer without any start code: neither `00 00 01` nor `00 00 00 01` occurs in it. -/
def NoStartCode (data : List Nat) : Prop :=
  ¬ [0, 0, 1] <:+: data ∧ ¬ [0, 0, 0, 1] <:+: data

instance : DecidablePred NoStartCode := fun u => by unfold NoStartCode; infer_instance

/-! ## `b64_encode` (whip-output.h) -/

/-- The string `base64_chars`. -/
def base64_chars : List Char :=
  "ABCDEFGHIJKLMNOPQRSTUVWXYZabcdefghijklmnopqrstuvwxyz0123456789+/".toList

/-- The read `base64_chars[idx]`. Every index the encoder computes is a six-bit value, inside
the 64 characters of the string (`b64_index_lt`); the character `=` stands for a read that
does not happen. -/
def b64_char (idx : Nat) : Char := base64_chars.getD idx '='

/-- The four assignments to `char_array_4` from `char_array_3 = {a0, a1, a2}`; the
elements are `unsigned char`, so each sum is stored modulo 256. -/
def char_array_4 (a0 a1 a2 : Nat) : List Nat :=
  [ ((a0 &&& 0xfc) >>> 2) % 256,
    (((a0 &&& 0x03) <<< 4) + ((a1 &&& 0xf0) >>> 4)) % 256,
    (((a1 &&& 0x0f) <<< 2) + ((a2 &&& 0xc0) >>> 6)) % 256,
    (a2 &&& 0x3f) % 256 ]

/-- The registers of `b64_encode` inside its `while (in_len--)` loop: the counter `i`, the
array `char_array_3` and the string `ret`. The array is uninitialised in the source; no element
is read before it is written, and the model starts it at zero. -/
structure B64State where
  i : Nat
  a0 : Nat
  a1 : Nat
  a2 : Nat
  ret : List Char
deriving DecidableEq, Repr

/-- One iteration of `while (in_len--)`:
`char_array_3[i++] = *(bytes_to_encode++); if (i == 3) { ... ret += ...; i = 0; }`.
The input is a `char`, the array element an `unsigned char`: the byte is stored modulo 256. -/
def b64_step (st : B64State) (byte : Nat) : B64State :=
  let b := byte % 256
  let st1 : B64State :=
    if st.i = 0 then { st with a0 := b, i := 1 }
    else if st.i = 1 then { st with a1 := b, i := 2 }
    else { st with a2 := b, i := 3 }
  if st1.i = 3 then
    { st1 with ret := st1.ret ++ (char_array_4 st1.a0 st1.a1 st1.a2).map b64_char, i := 0 }
  else st1

/-- The block `if (i) { ... }` after the loop: the unused elements of `char_array_3` are set
to zero, the first `i + 1` characters are appended, then `=` while `i++ < 3`. -/
def b64_finish (st : B64State) : List Char :=
  if st.i = 0 then st.ret
  else
    let a1 := if st.i ≤ 1 then 0 else st.a1
    let a2 := if st.i ≤ 2 then 0 else st.a2
    st.ret ++ ((char_array_4 st.a0 a1 a2).take (st.i + 1)).map b64_char
      ++ List.replicate (3 - st.i) '='

/-- The function `b64_encode(bytes_to_encode, in_len)` on the `in_len` bytes given. -/
def b64_encode (bytes_to_encode : List Nat) : List Char :=
  b64_finish (bytes_to_encode.foldl b64_step { i := 0, a0 := 0, a1 := 0, a2 := 0, ret := [] })

/-! ### Base 64 as RFC 4648 defines it -/

/-- The base 64 alphabet of RFC 4648, table 1: value `v` is encoded by the `v`-th character
of `A-Z`, `a-z`, `0-9`, `+`, `/`. -/
def rfc4648Alphabet (v : Nat) : Char :=
  if v < 26 then Char.ofNat (65 + v)
  else if v < 52 then Char.ofNat (97 + (v - 26))
  else if v < 62 then Char.ofNat (48 + (v - 52))
  else if v = 62 then '+' else '/'

/-- The padded base 64 encoding of RFC 4648, section 4: each group of three octets forms a
24-bit number that is cut into four 6-bit values; a final group of one octet (8 bits, padded
with zero bits to 12) gives two characters and `==`, a final group of two octets (16 bits,
padded to 18) gives three characters and `=`. -/
def rfc4648Base64 : List Nat → List Char
  | [] => []
  | [a] =>
    let n := a * 16
    [rfc4648Alphabet (n / 64 % 64), rfc4648Alphabet (n % 64), '=', '=']
  | [a, b] =>
    let n := (a * 256 + b) * 4
    [rfc4648Alphabet (n / 4096 % 64), rfc4648Alphabet (n / 64 % 64), rfc4648Alphabet (n % 64), '=']
  | a :: b :: c :: rest =>
    let n := a * 65536 + b * 256 + c
    [rfc4648Alphabet (n / 262144 % 64), rfc4648Alphabet (n / 4096 % 64),
      rfc4648Alphabet (n / 64 % 64), rfc4648Alphabet (n % 64)] ++ rfc4648Base64 rest

/-! ## The session object and its collaborators (whip-output.h, whip-output.cpp) -/

/-- The stop codes the source passes to `obs_output_signal_stop`. They are macros of the host
framework; only their names are used here. -/
inductive StopCode where
  | OBS_OUTPUT_SUCCESS
  | OBS_OUTPUT_BAD_PATH
  | OBS_OUTPUT_CONNECT_FAILED
  | OBS_OUTPUT_INVALID_STREAM
  | OBS_OUTPUT_ERROR
  | OBS_OUTPUT_DISCONNECTED
  | OBS_OUTPUT_ENCODE_ERROR
deriving DecidableEq, Repr

/-- The log levels used with `do_log`. -/
inductive LogLevel where
  | LOG_DEBUG
  | LOG_INFO
  | LOG_WARNING
deriving DecidableEq, Repr

/-- An argument of a `do_log` call. -/
inductive LogArg where
  | str (s : List Char)
  | num (n : Int)
deriving DecidableEq, Repr

/-- The calls the session makes to its collaborators (host framework, transport engine, HTTP
library), in the order it makes them; handles are the integers of the C API. -/
inductive Event where
  | obs_output_signal_stop (code : StopCode)
  | obs_output_begin_data_capture
  | do_log (level : LogLevel) (format : String) (args : List LogArg)
  | rtcCreatePeerConnection (pc : Int)
  | rtcSetUserPointer (pc : Int)
  | rtcSetStateChangeCallback (pc : Int)
  | rtcAddTrackEx (pc : Int) (mid : String) (cname msid track_id : List Char) (track : Int)
  | rtcSetPacketizationHandler (track : Int) (clockrate : Nat)
  | rtcChainRtcpSrReporter (track : Int)
  | rtcChainRtcpNackResponder (track : Int) (max_stored_packets : Nat)
  | rtcSetLocalDescription (pc : Int)
  | rtcSetRemoteDescription (pc : Int) (sdp : List Char)
  | rtcDeletePeerConnection (pc : Int)
  | http_post (url : List Char) (headers : List (List Char)) (body : List Char)
  | http_delete (url : List Char) (headers : List (List Char))
deriving DecidableEq, Repr

/-- The number of `obs_output_signal_stop` calls in a trace. -/
def signalStopCount (evs : List Event) : Nat :=
  (evs.filter fun e => match e with
    | .obs_output_signal_stop _ => true
    | _ => false).length

/-- The number of `obs_output_begin_data_capture` calls in a trace. -/
def beginCaptureCount (evs : List Event) : Nat :=
  (evs.filter fun e => match e with
    | .obs_output_begin_data_capture => true
    | _ => false).length

/-- The handles returned by the `rtcCreatePeerConnection` calls of a trace. -/
def createdSessions (evs : List Event) : List Int :=
  evs.filterMap fun e => match e with
    | .rtcCreatePeerConnection pc => some pc
    | _ => none

/-- The handles passed to the `rtcDeletePeerConnection` calls of a trace. -/
def deletedSessions (evs : List Event) : List Int :=
  evs.filterMap fun e => match e with
    | .rtcDeletePeerConnection pc => some pc
    | _ => none

/-- The descriptions passed to the `rtcSetRemoteDescription` calls of a trace. -/
def remoteDescriptions (evs : List Event) : List (List Char) :=
  evs.filterMap fun e => match e with
    | .rtcSetRemoteDescription _ sdp => some sdp
    | _ => none

/-- The number of HTTP requests (POST or DELETE) in a trace. -/
def httpRequestCount (evs : List Event) : Nat :=
  (evs.filter fun e => match e with
    | .http_post _ _ _ => true
    | .http_delete _ _ => true
    | _ => false).length

/-- The report that ends the trace of a failed operation: the format of the warning logged
and the stop code signalled right after it. -/
def failureReport (evs : List Event) : Option (String × StopCode) :=
  match evs.reverse with
  | .obs_output_signal_stop code :: .do_log .LOG_WARNING format _ :: _ => some (format, code)
  | _ => none

/-- The outcome of `curl_easy_perform` as the session observes it: the `CURLcode` (`0` is
`CURLE_OK`), the response code, the body collected by `curl_writefunction` and the value
collected by `curl_headerfunction`. -/
structure HttpResult where
  res : Nat
  response_code : Int
  read_buffer : List Char
  location_header : List Char
deriving DecidableEq, Repr

/-- The service object of the host: what `obs_service_get_connect_info` returns for the
server URL and for the bearer token. -/
structure Service where
  server_url : List Char
  bearer_token : List Char
deriving DecidableEq, Repr

/-- The answers of the collaborators during one start sequence. -/
structure Env where
  /-- the result of `obs_output_get_service` -/
  service : Option Service
  /-- the result of `obs_output_get_video_encoder` (`none`: no encoder) and, for an encoder,
  of `obs_encoder_get_extra_data` (`none`: the call returns false) -/
  video_encoder : Option (Option (List Nat))
  /-- the value of `rtcCreatePeerConnection` -/
  new_peer_connection : Int
  /-- the values of the two `rtcAddTrackEx` calls -/
  new_audio_track : Int
  new_video_track : Int
  /-- the value returned by the `n`-th call of `rand()`, a non-negative `int` -/
  rand : Nat → Nat
  /-- the content of the buffer `offer_sdp` after `rtcGetLocalDescription` -/
  local_description : List Char
  /-- the outcome of the POST -/
  post : HttpResult
  /-- the URL produced by `curl_url_set` with the endpoint, `curl_url_set` with the Location
  value and `curl_url_get`; `none` when `curl_url_get` fails -/
  resolve : List Char → List Char → Option (List Char)

/-- The data members of `WHIPOutput` that the methods below read or write (the mutex and the
thread object are left out: the methods are run one after the other). -/
structure WHIPOutput where
  endpoint_url : List Char
  bearer_token : List Char
  resource_url : List Char
  running : Bool
  sprop_parameter_sets : List Char
  peer_connection : Int
  audio_track : Int
  video_track : Int
  total_bytes_sent : Nat
  connect_time_ms : Int
  start_time_ns : Int
  last_audio_timestamp : Int
  last_video_timestamp : Int
deriving DecidableEq, Repr

/-- The object the constructor `WHIPOutput::WHIPOutput` builds. `sprop_parameter_sets` is
default-constructed, hence empty. -/
def WHIPOutput.fresh : WHIPOutput :=
  { endpoint_url := [], bearer_token := [], resource_url := [], running := false,
    sprop_parameter_sets := [], peer_connection := -1, audio_track := -1, video_track := -1,
    total_bytes_sent := 0, connect_time_ms := 0, start_time_ns := 0,
    last_audio_timestamp := 0, last_video_timestamp := 0 }

/-! ### `WHIPOutput::Init` -/

/-- Modelled from the spec: the constant `OBS_NAL_SPS` of `obs-nal.h`, which is not among the
sources; the specification gives the value 7 for a sequence parameter set. -/
def OBS_NAL_SPS : Nat := 7

/-- Modelled from the spec: the constant `OBS_NAL_PPS` of `obs-nal.h`, which is not among the
sources; the specification gives the value 8 for a picture parameter set. -/
def OBS_NAL_PPS : Nat := 8

/-- The expression `nalu[0] & 0x1F`, the type of a unit: the low five bits of its first byte.
On an empty vector `nalu[0]` reads outside the vector. -/
def naluType (nalu : List Nat) : Option Nat :=
  match nalu[0]? with
  | none => none
  | some b0 => some (b0 &&& 0x1F)

/-- The body of `for (std::vector<uint8_t> &nalu : nalus)` in `Init`, on the pair of
`sprop_parameter_sets` and the log written so far. -/
def Init_nalu (acc : List Char × List Event) (nalu : List Nat) :
    Except Fault (List Char × List Event) :=
  match naluType nalu with
  | none => .error .outOfBounds
  | some type =>
    if type = OBS_NAL_SPS then
      let encoded := b64_encode nalu
      .ok ("sprop-parameter-sets=".toList ++ encoded ++ ",".toList,
        acc.2 ++ [.do_log .LOG_DEBUG "SPS NALU found!" [],
          .do_log .LOG_DEBUG "SPS Base64 encoded: %s" [.str encoded]])
    else if type = OBS_NAL_PPS then
      let encoded := b64_encode nalu
      .ok (acc.1 ++ encoded ++ ";".toList,
        acc.2 ++ [.do_log .LOG_DEBUG "PPS NALU found!" [],
          .do_log .LOG_DEBUG "PPS Base64 encoded: %s" [.str encoded]])
    else .ok acc

/-- The `for` loop of `Init` over the parsed units. -/
def Init_nalus : List (List Nat) → List Char × List Event → Except Fault (List Char × List Event)
  | [], acc => .ok acc
  | nalu :: rest, acc =>
    match Init_nalu acc nalu with
    | .ok acc1 => Init_nalus rest acc1
    | .error e => .error e

/-- The block of `Init` guarded by `obs_encoder_get_extra_data(video_enc, &header, &size)`:
parse the extra data, build `sprop_parameter_sets`, log the result. -/
def Init_extra_data (header : List Nat) (sprop : List Char) :
    Except Fault (List Char × List Event) :=
  match parse_h264_nals header with
  | .error e => .error e
  | .ok nalus =>
    match Init_nalus nalus (sprop, []) with
    | .error e => .error e
    | .ok (sprop1, evs) =>
      if sprop1 = [] then
        .ok (sprop1, evs ++ [.do_log .LOG_DEBUG "No h264 critical data available" []])
      else
        .ok (sprop1, evs ++ [.do_log .LOG_INFO "Parameter set: %s" [.str sprop1]])

/-- The method `WHIPOutput::Init`: its return value, the object afterwards and the calls
made. The deallocation `bfree(header)` has no counterpart here. -/
def Init (env : Env) (st : WHIPOutput) : Except Fault (Bool × WHIPOutput × List Event) :=
  match env.service with
  | none => .ok (false, st, [.obs_output_signal_stop .OBS_OUTPUT_ERROR])
  | some service =>
    let st1 := { st with endpoint_url := service.server_url }
    if st1.endpoint_url = [] then
      .ok (false, st1, [.obs_output_signal_stop .OBS_OUTPUT_BAD_PATH])
    else
      let st2 := { st1 with bearer_token := service.bearer_token }
      match env.video_encoder with
      | none => .ok (true, st2, [])
      | some extra =>
        let evs := [Event.do_log .LOG_INFO "Got video encoder" []]
        match extra with
        | none => .ok (true, st2, evs)
        | some header =>
          match Init_extra_data header st2.sprop_parameter_sets with
          | .error e => .error e
          | .ok (sprop, evs1) =>
            .ok (true, { st2 with sprop_parameter_sets := sprop }, evs ++ evs1)

/-! ### `WHIPOutput::Setup` -/

/-- The constant `signaling_media_id_length`. -/
def signaling_media_id_length : Nat := 16

/-- The array `signaling_media_id_valid_char`: the 62 characters of the string literal and
its terminating NUL, `sizeof` = 63. -/
def signaling_media_id_valid_char : List Char :=
  "0123456789ABCDEFGHIJKLMNOPQRSTUVWXYZabcdefghijklmnopqrstuvwxyz".toList ++ [Char.ofNat 0]

/-- The expression `signaling_media_id_valid_char[rand() % (sizeof(...) - 1)]` for the value
`r` of `rand()`; an index outside the array is a fault. -/
def valid_char_at (r : Nat) : Except Fault Char :=
  match signaling_media_id_valid_char[r % (signaling_media_id_valid_char.length - 1)]? with
  | some c => .ok c
  | none => .error .outOfBounds

/-- The loop `for (int i = 0; i < signaling_media_id_length; ++i)` of `Setup`, with `iters`
iterations left and `calls` calls of `rand()` made so far: each iteration appends one
character to `media_stream_id`, then one to `cname`. -/
def generate_ids (rand : Nat → Nat) : Nat → Nat → List Char → List Char →
    Except Fault (List Char × List Char)
  | 0, _, media_stream_id, cname => .ok (media_stream_id, cname)
  | iters + 1, calls, media_stream_id, cname =>
    match valid_char_at (rand calls) with
    | .error e => .error e
    | .ok c1 =>
      match valid_char_at (rand (calls + 1)) with
      | .error e => .error e
      | .ok c2 => generate_ids rand iters (calls + 2) (media_stream_id ++ [c1]) (cname ++ [c2])

/-- The two identifiers `Setup` generates: `media_stream_id` and `cname`. -/
def Setup_ids (rand : Nat → Nat) : Except Fault (List Char × List Char) :=
  generate_ids rand signaling_media_id_length 0 [] []

/-- The method `WHIPOutput::Setup` (with `ConfigureAudioTrack` and `ConfigureVideoTrack`). -/
def Setup (env : Env) (st : WHIPOutput) : Except Fault (Bool × WHIPOutput × List Event) :=
  let pc := env.new_peer_connection
  let st1 := { st with peer_connection := pc }
  match Setup_ids env.rand with
  | .error e => .error e
  | .ok (media_stream_id, cname) =>
    let st2 := { st1 with audio_track := env.new_audio_track }
    let st3 := { st2 with video_track := env.new_video_track }
    .ok (true, st3,
      [ .rtcCreatePeerConnection pc,
        .rtcSetUserPointer pc,
        .rtcSetStateChangeCallback pc,
        -- ConfigureAudioTrack(media_stream_id, cname)
        .rtcAddTrackEx pc "0" cname media_stream_id (media_stream_id ++ "-audio".toList)
          env.new_audio_track,
        .rtcSetPacketizationHandler env.new_audio_track 48000,
        .rtcChainRtcpSrReporter env.new_audio_track,
        .rtcChainRtcpNackResponder env.new_audio_track 1000,
        -- ConfigureVideoTrack(media_stream_id, cname)
        .rtcAddTrackEx pc "1" cname media_stream_id (media_stream_id ++ "-video".toList)
          env.new_video_track,
        .rtcSetPacketizationHandler env.new_video_track 90000,
        .rtcChainRtcpSrReporter env.new_video_track,
        .rtcChainRtcpNackResponder env.new_video_track 1000,
        .rtcSetLocalDescription pc ])

/-! ### `WHIPOutput::Connect` -/

/-- The character `'\0'`. -/
abbrev NUL : Char := Char.ofNat 0

/-- The C string stored in a character buffer: the characters before the first NUL. This is
what `std::string(const char *)` and `CURLOPT_COPYPOSTFIELDS` read. -/
def c_str (buf : List Char) : List Char := buf.takeWhile (fun c => c ≠ NUL)

/-- The search of `std::string::rfind(pat)` downwards from position `i`. -/
def rfindFrom (s pat : List Char) : Nat → Option Nat
  | 0 => if pat.isPrefixOf s then some 0 else none
  | i + 1 => if pat.isPrefixOf (s.drop (i + 1)) then some (i + 1) else rfindFrom s pat i

/-- The call `s.rfind(pat)`: the highest position at which `pat` occurs in `s`, `none` for
`std::string::npos`. -/
def rfind (s pat : List Char) : Option Nat :=
  if pat.length ≤ s.length then rfindFrom s pat (s.length - pat.length) else none

/-- The call `s.erase(index, count)` for `index ≤ s.size()`. -/
def erase (s : List Char) (index count : Nat) : List Char :=
  s.take index ++ s.drop (index + count)

/-- The call `s.insert(index, str)` for `index ≤ s.size()`. -/
def insert (s : List Char) (index : Nat) (str : List Char) : List Char :=
  s.take index ++ str ++ s.drop index

/-- The first half of the `else` branch of `Connect`: `munged_sdp(offer_sdp)`, `resize`
(which appends NUL characters), and the `erase` of 16 characters at the last
`a=group:LS 0 1`. -/
def munge_erase (offer_sdp sprop_parameter_sets : List Char) : List Char :=
  let munged_sdp := c_str offer_sdp
  let munged_sdp := munged_sdp ++ List.replicate sprop_parameter_sets.length NUL
  match rfind munged_sdp "a=group:LS 0 1".toList with
  | some index => erase munged_sdp index 16
  | none => munged_sdp

/-- The string `munged_sdp` at the `curl_easy_setopt(c, CURLOPT_COPYPOSTFIELDS, ...)` call:
after the `erase`, the `insert` of the parameter sets at the last `packetization`. -/
def munged_sdp (offer_sdp sprop_parameter_sets : List Char) : List Char :=
  let munged_sdp := munge_erase offer_sdp sprop_parameter_sets
  match rfind munged_sdp "packetization".toList with
  | some index => insert munged_sdp index sprop_parameter_sets
  | none => munged_sdp

/-- The body given to `CURLOPT_COPYPOSTFIELDS`, which copies a C string. -/
def post_body (offer_sdp sprop_parameter_sets : List Char) : List Char :=
  if sprop_parameter_sets = [] then c_str offer_sdp
  else c_str (munged_sdp offer_sdp sprop_parameter_sets)

/-- The header list `Connect` and `SendDelete` share: the bearer token, when there is one. -/
def bearer_header (bearer_token : List Char) : List (List Char) :=
  if bearer_token = [] then [] else ["Authorization: Bearer ".toList ++ bearer_token]

/-- The block of `Connect` that handles the `Location` header after a successful exchange:
`resource_url` is set when the header is present and can be resolved against the endpoint. -/
def Connect_location (env : Env) (st : WHIPOutput) : WHIPOutput × List Event :=
  if env.post.location_header = [] then
    (st, [.do_log .LOG_WARNING
      "WHIP server did not provide a resource URL via the Location header" []])
  else
    match env.resolve st.endpoint_url env.post.location_header with
    | some url =>
      ({ st with resource_url := url },
        [.do_log .LOG_DEBUG "WHIP Resource URL is: %s" [.str url]])
    | none =>
      (st, [.do_log .LOG_WARNING "Unable to process resource URL response" []])

/-- The calls `Connect` makes up to and including `curl_easy_perform`: the log of the munged
offer when there are parameter sets, then the POST. -/
def Connect_request (env : Env) (st : WHIPOutput) : List Event :=
  (if st.sprop_parameter_sets = [] then []
    else [Event.do_log .LOG_INFO "Munged offer: %s"
      [.str (c_str (munged_sdp env.local_description st.sprop_parameter_sets))]])
  ++ [Event.http_post st.endpoint_url
      (["Content-Type: application/sdp".toList] ++ bearer_header st.bearer_token)
      (post_body env.local_description st.sprop_parameter_sets)]

/-- The method `WHIPOutput::Connect`: its return value, the object afterwards and the calls
made. `sprop_parameter_sets.clear()` is in the branch taken when the string is not empty, so
the string is empty afterwards in either branch. -/
def Connect (env : Env) (st : WHIPOutput) : Bool × WHIPOutput × List Event :=
  let evs := Connect_request env st
  let st1 := { st with sprop_parameter_sets := [] }
  if env.post.res ≠ 0 then
    (false, st1, evs ++
      [.do_log .LOG_WARNING "Connect failed: CURL returned result not CURLE_OK" [],
       .obs_output_signal_stop .OBS_OUTPUT_CONNECT_FAILED])
  else if env.post.response_code ≠ 201 then
    (false, st1, evs ++
      [.do_log .LOG_WARNING "Connect failed: HTTP endpoint returned response code %ld"
         [.num env.post.response_code],
       .obs_output_signal_stop .OBS_OUTPUT_INVALID_STREAM])
  else if env.post.read_buffer = [] then
    (false, st1, evs ++
      [.do_log .LOG_WARNING "Connect failed: No data returned from HTTP endpoint request" [],
       .obs_output_signal_stop .OBS_OUTPUT_CONNECT_FAILED])
  else
    let r := Connect_location env st1
    (true, r.1, evs ++ r.2 ++
      [.rtcSetRemoteDescription r.1.peer_connection (c_str env.post.read_buffer)])

/-! ### `WHIPOutput::SendDelete`, `StartThread`, `StopThread`, `Stop`, `Data` -/

/-- The method `WHIPOutput::SendDelete`, given the outcome `del` of the DELETE request should
it be performed. -/
def SendDelete (del : HttpResult) (st : WHIPOutput) : WHIPOutput × List Event :=
  if st.resource_url = [] then
    (st, [.do_log .LOG_DEBUG "No resource URL available, not sending DELETE" []])
  else
    let evs := [Event.http_delete st.resource_url (bearer_header st.bearer_token)]
    if del.res ≠ 0 then
      (st, evs ++ [.do_log .LOG_WARNING "DELETE request for resource URL failed. Reason: %s"
        [.num del.res]])
    else if del.response_code ≠ 200 then
      (st, evs ++ [.do_log .LOG_WARNING "DELETE request for resource URL failed. HTTP Code: %ld"
        [.num del.response_code]])
    else
      ({ st with resource_url := [] },
        evs ++ [.do_log .LOG_DEBUG "Successfully performed DELETE request for resource URL" []])

/-- The method `WHIPOutput::StartThread`. -/
def StartThread (env : Env) (st : WHIPOutput) : Except Fault (WHIPOutput × List Event) :=
  match Init env st with
  | .error e => .error e
  | .ok (false, st1, evs1) => .ok (st1, evs1)
  | .ok (true, st1, evs1) =>
    match Setup env st1 with
    | .error e => .error e
    | .ok (false, st2, evs2) => .ok (st2, evs1 ++ evs2)
    | .ok (true, st2, evs2) =>
      match Connect env st2 with
      | (false, st3, evs3) =>
        .ok ({ st3 with peer_connection := -1, audio_track := -1, video_track := -1 },
          evs1 ++ evs2 ++ evs3 ++ [.rtcDeletePeerConnection st3.peer_connection])
      | (true, st3, evs3) =>
        .ok ({ st3 with running := true },
          evs1 ++ evs2 ++ evs3 ++ [.obs_output_begin_data_capture])

/-- The first block of `StopThread`: `if (peer_connection != -1) { rtcDeletePeerConnection(...);
peer_connection = -1; audio_track = -1; video_track = -1; }`. -/
def StopThread_release (st : WHIPOutput) : WHIPOutput × List Event :=
  if st.peer_connection ≠ -1 then
    ({ st with peer_connection := -1, audio_track := -1, video_track := -1 },
      [.rtcDeletePeerConnection st.peer_connection])
  else (st, [])

/-- The block `if (running && signal) { obs_output_signal_stop(output, OBS_OUTPUT_SUCCESS);
running = false; }` of `StopThread`. -/
def StopThread_report (signal : Bool) (st : WHIPOutput) : WHIPOutput × List Event :=
  if st.running ∧ signal then
    ({ st with running := false }, [.obs_output_signal_stop .OBS_OUTPUT_SUCCESS])
  else (st, [])

/-- The last five assignments of `StopThread`, which reset the counters. -/
def StopThread_reset (st : WHIPOutput) : WHIPOutput :=
  { st with total_bytes_sent := 0, connect_time_ms := 0, start_time_ns := 0,
            last_audio_timestamp := 0, last_video_timestamp := 0 }

/-- The method `WHIPOutput::StopThread(signal)`, given the outcome `del` of the DELETE request
should `SendDelete` perform it. -/
def StopThread (signal : Bool) (del : HttpResult) (st : WHIPOutput) : WHIPOutput × List Event :=
  let r1 := StopThread_release st
  let r2 := SendDelete del r1.1
  let r3 := StopThread_report signal r2.1
  (StopThread_reset r3.1, r1.2 ++ r2.2 ++ r3.2)

/-- The method `WHIPOutput::Stop(signal)` with its thread run to completion: there is no
earlier thread left to join, and the new thread runs `StopThread(signal)`. -/
def Stop (signal : Bool) (del : HttpResult) (st : WHIPOutput) : WHIPOutput × List Event :=
  StopThread signal del st

/-- The `else` branch of `WHIPOutput::Data`, taken for a null packet:
`Stop(false); obs_output_signal_stop(output, OBS_OUTPUT_ENCODE_ERROR);`. -/
def Data_null (del : HttpResult) (st : WHIPOutput) : WHIPOutput × List Event :=
  ((Stop false del st).1,
    (Stop false del st).2 ++ [.obs_output_signal_stop .OBS_OUTPUT_ENCODE_ERROR])

/-- The state-change callback installed by `Setup`, for `RTC_DISCONNECTED`:
`Stop(false); obs_output_signal_stop(output, OBS_OUTPUT_DISCONNECTED);`. -/
def on_disconnected (del : HttpResult) (st : WHIPOutput) : WHIPOutput × List Event :=
  ((Stop false del st).1,
    [Event.do_log .LOG_INFO "PeerConnection state is now: Disconnected" []] ++
      (Stop false del st).2 ++ [.obs_output_signal_stop .OBS_OUTPUT_DISCONNECTED])

/-- The state-change callback installed by `Setup`, for `RTC_FAILED`:
`Stop(false); obs_output_signal_stop(output, OBS_OUTPUT_ERROR);`. -/
def on_failed (del : HttpResult) (st : WHIPOutput) : WHIPOutput × List Event :=
  ((Stop false del st).1,
    [Event.do_log .LOG_INFO "PeerConnection state is now: Failed" []] ++
      (Stop false del st).2 ++ [.obs_output_signal_stop .OBS_OUTPUT_ERROR])

/-- What can happen to a session between two starts, each with the outcome of the DELETE
request its stop thread would perform. -/
inductive Happening where
  | host_stop (del : HttpResult)
  | null_frame (del : HttpResult)
  | disconnected (del : HttpResult)
  | failed (del : HttpResult)
deriving DecidableEq, Repr

/-- The effect of one happening: the host callback `info.stop` calls `Stop()` with the default
argument `signal = true`. -/
def happen (h : Happening) (st : WHIPOutput) : WHIPOutput × List Event :=
  match h with
  | .host_stop del => Stop true del st
  | .null_frame del => Data_null del st
  | .disconnected del => on_disconnected del st
  | .failed del => on_failed del st

/-- A sequence of happenings, one after the other: the final object and the whole trace. -/
def happenAll : List Happening → WHIPOutput → WHIPOutput × List Event
  | [], st => (st, [])
  | h :: rest, st =>
    ((happenAll rest (happen h st).1).1, (happen h st).2 ++ (happenAll rest (happen h st).1).2)


/-- Whether a happening is a stop requested by the host. -/
def Happening.isHostStop : Happening → Bool
  | .host_stop _ => true
  | _ => false

/-- The number of happenings that are not requested by the host: null frames and
Disconnected/Failed notifications of the transport. -/
def internalCount (hs : List Happening) : Nat :=
  (hs.filter fun h => !h.isHostStop).length

/-! ### A start sequence that succeeds, for the concrete instances below -/

/-- An environment in which the start sequence succeeds: a service with an endpoint and no
token, no video encoder, a POST answered with 201, a body and a Location header. -/
def sampleEnv : Env :=
  { service := some { server_url := "https://example.com/whip".toList, bearer_token := [] },
    video_encoder := none,
    new_peer_connection := 1,
    new_audio_track := 2,
    new_video_track := 3,
    rand := fun n => 7 * n + 3,
    local_description := "v=0".toList,
    post := { res := 0, response_code := 201, read_buffer := "v=0".toList,
              location_header := "/resource/abc".toList },
    resolve := fun _ location => some ("https://example.com".toList ++ location) }

/-- A DELETE request answered with status 200. -/
def sampleDelete : HttpResult :=
  { res := 0, response_code := 200, read_buffer := [], location_header := [] }

/-- A trace that consists of log lines only. -/
def AllLogs (evs : List Event) : Prop := ∀ e ∈ evs, ∃ l f a, e = Event.do_log l f a

/-! ## `trim_string`, `curl_headerfunction` (whip-output.h) -/

/-- The call `s.find_first_not_of(chars)`: the position of the first character of `s` that is
not among `chars`, `none` for `std::string::npos`. -/
def find_first_not_of (s chars : List Char) : Option Nat :=
  match s with
  | [] => none
  | c :: rest =>
    if c ∈ chars then
      match find_first_not_of rest chars with
      | some n => some (n + 1)
      | none => none
    else some 0

/-- The call `s.find_last_not_of(chars)`: the position of the last character of `s` that is
not among `chars`, `none` for `std::string::npos`. -/
def find_last_not_of (s chars : List Char) : Option Nat :=
  match find_first_not_of s.reverse chars with
  | some n => some (s.length - 1 - n)
  | none => none

/-- The function `trim_string(source)`. With `npos` as its count, `erase(0, npos)` removes
every character; `npos + 1` wraps around to `0`, so that `erase(npos + 1)` does as well. -/
def trim_string (source : List Char) : List Char :=
  let ret := source
  -- ret.erase(0, ret.find_first_not_of(" \n\r\t"));
  let ret := match find_first_not_of ret " \n\r\t".toList with
    | some n => erase ret 0 n
    | none => []
  -- ret.erase(ret.find_last_not_of(" \n\r\t") + 1);
  match find_last_not_of ret " \n\r\t".toList with
  | some n => ret.take (n + 1)
  | none => ret.take 0

/-- Modelled from the spec: the helper `astrcmpi_n` of the host's `util/dstr.h`, which is not
among the sources. The specification says that the header name is compared
case-insensitively: the result is `0` when the first `n` characters of the two strings are
equal up to the case of their letters, and non-zero otherwise. -/
def astrcmpi_n (str1 str2 : List Char) (n : Nat) : Int :=
  if (str1.take n).map Char.toUpper = (str2.take n).map Char.toUpper then 0 else 1

/-- The macro `LOCATION_HEADER_LENGTH`. -/
def LOCATION_HEADER_LENGTH : Nat := 10

/-- The function `curl_headerfunction(data, size, nmemb, priv_data)` on the `size * nmemb`
characters at `data` and the string `*header_buffer` that `priv_data` points to: the value
returned and the string afterwards. The product is a `size_t`. -/
def curl_headerfunction (data : List Char) (size nmemb : Nat) (header_buffer : List Char) :
    Nat × List Char :=
  let real_size := (size * nmemb) % 2 ^ 64
  if real_size < LOCATION_HEADER_LENGTH then (real_size, header_buffer)
  else if astrcmpi_n data "location: ".toList LOCATION_HEADER_LENGTH = 0 then
    let val := data.drop LOCATION_HEADER_LENGTH
    let header_buffer := header_buffer ++ val.take (real_size - LOCATION_HEADER_LENGTH)
    (real_size, trim_string header_buffer)
  else (real_size, header_buffer)

/-! ### Header lines -/

/-- The field name of a header line: the characters before its first colon. -/
def fieldName (line : List Char) : List Char := line.takeWhile (fun c => c ≠ ':')

/-- The field value of a header line: the characters after its first colon. -/
def fieldValue (line : List Char) : List Char := (line.dropWhile (fun c => c ≠ ':')).drop 1

/-- Whether a field name is `Location` in some mix of letter case. -/
def IsLocation (name : List Char) : Prop := name.map Char.toUpper = "LOCATION".toList

instance : DecidablePred IsLocation := fun n => by unfold IsLocation; infer_instance

/-- The whitespace characters: space, tab, CR and LF. -/
def isWhitespace (c : Char) : Bool :=
  c = ' ' || c = Char.ofNat 9 || c = Char.ofNat 13 || c = Char.ofNat 10

/-- A string with all its leading and trailing whitespace removed. -/
def strip (s : List Char) : List Char := (s.dropWhile isWhitespace).rdropWhile isWhitespace

/-! ### Strings that do not overlap themselves -/

/-- A string of which no proper, non-empty prefix is also a suffix. -/
def Unbordered (s : List Char) : Prop :=
  ∀ k, k < s.length → 0 < k → s.take k ≠ s.drop (s.length - k)

instance : DecidablePred Unbordered := fun s => by unfold Unbordered; infer_instance

/-! ### The invariant of the parser loop -/

/-- The invariant of the loop of `parse_h264_nals`: `current` is inside the buffer or at its
end, `start` is at most one byte past `current` (after a four-byte start code), and no unit is
empty. -/
def ParseInv (data : List Nat) (st : ParseState) : Prop :=
  st.current ≤ data.length ∧
  (st.start ≤ st.current ∨ (st.start = st.current + 1 ∧ st.current < data.length)) ∧
  ∀ u ∈ st.nalus, u ≠ []

/-- A buffer that ends in a start code, `00 00 01` or `00 00 00 01`. -/
def EndsInStartCode (data : List Nat) : Prop :=
  [0, 0, 1] <:+ data ∨ [0, 0, 0, 1] <:+ data

instance : DecidablePred EndsInStartCode := fun d => by unfold EndsInStartCode; infer_instance

end WHIP

/-! # Theorems -/

namespace WHIP

/-! ## The parser -/

theorem isStartCode_drop (data : List Nat) (i : Nat) :
    isStartCode data i = isStartCode (data.drop i) 0 := by
  simp [isStartCode, readByte, List.getElem?_drop]

theorem isStartCode_unit (v t : List Nat) (hne : v ≠ []) (hpat : ¬ [0, 0, 1] <:+: v)
    (hlast : v.getLast? ≠ some 0) : isStartCode (v ++ t) 0 = .ok false := by
  rcases v with _ | ⟨a, _ | ⟨b, _ | ⟨c, _ | ⟨d, w⟩⟩⟩⟩
  · exact absurd rfl hne
  · have ha : a ≠ 0 := by simpa using hlast
    simp [isStartCode, readByte, ha]
  · have hb : b ≠ 0 := by simpa using hlast
    by_cases ha : a = 0 <;> simp [isStartCode, readByte, ha, hb]
  · have hc : c ≠ 0 := by simpa using hlast
    by_cases ha : a = 0 <;> by_cases hb : b = 0 <;> simp [isStartCode, readByte, ha, hb, hc]
    intro h1; subst ha hb h1; exact hpat (List.infix_refl _)
  · have h1 : a = 0 → b = 0 → c ≠ 1 := by
      intro ha hb hc; subst ha hb hc
      exact hpat ⟨[], d :: w, rfl⟩
    have h2 : b = 0 → c = 0 → d ≠ 1 := by
      intro hb hc hd; subst hb hc hd
      exact hpat ⟨[a], w, rfl⟩
    by_cases ha : a = 0 <;> by_cases hb : b = 0 <;> by_cases hc : c = 0 <;>
      simp [isStartCode, readByte, ha, hb, hc]
    · exact h2 hb hc
    · exact fun h => h1 ha hb h

/-- Inside a well-formed unit the start-code test reads inside the unit and fails. -/
theorem isStartCode_inside (pre u t : List Nat) (k : Nat) (hk : k < u.length)
    (hpat : ¬ [0, 0, 1] <:+: u) (hlast : u.getLast? ≠ some 0) :
    isStartCode (pre ++ u ++ t) (pre.length + k) = .ok false := by
  rw [isStartCode_drop]
  have hd : (pre ++ u ++ t).drop (pre.length + k) = u.drop k ++ t := by
    rw [List.append_assoc, List.drop_append, List.drop_append_of_le_length (by omega)]
  rw [hd]
  apply isStartCode_unit
  · intro h
    have := congrArg List.length h
    simp at this; omega
  · intro h
    exact hpat (h.trans (List.drop_suffix k u).isInfix)
  · rw [List.getLast?_drop]
    simp [Nat.not_le.mpr hk, hlast]

theorem parseLoop_scan (data : List Nat) (n : Nat) : ∀ (fuel : Nat) (st : ParseState),
    (∀ j, j < n → isStartCode data (st.current + j) = .ok false) →
    st.current + n ≤ data.length →
    parseLoop data (n + fuel) st = parseLoop data fuel { st with current := st.current + n } := by
  induction n with
  | zero => intro fuel st _ _; simp
  | succ n ih =>
    intro fuel st h hle
    have h0 := h 0 (by omega)
    have hlt : st.current < data.length := by omega
    rw [show n + 1 + fuel = (n + fuel) + 1 by omega]
    simp only [parseLoop, hlt, if_true, parseStep]
    simp only [Nat.add_zero] at h0
    rw [h0]
    simp only []
    rw [ih fuel _ (fun j hj => by
      have := h (j + 1) (by omega)
      simpa [Nat.add_assoc, Nat.add_comm 1 j] using this) (by simp; omega)]
    simp [Nat.add_assoc, Nat.add_comm 1 n]

theorem readByte_append (pre l : List Nat) (k : Nat) :
    readByte (pre ++ l) (pre.length + k) = readByte l k := by
  simp [readByte, List.getElem?_append_right]

theorem nalRange_append (pre u t : List Nat) :
    nalRange (pre ++ u ++ t) pre.length (pre.length + u.length) = u := by
  simp [nalRange, List.append_assoc, List.drop_append, List.take_append]

/-- The iteration at a start code that is followed by a non-empty unit. -/
theorem parseStep_startCode (pre t : List Nat) (four : Bool) (a : Nat) (w : List Nat)
    (st : ParseState) (hcur : st.current = pre.length) :
    parseStep (pre ++ (startCode four ++ (a :: w) ++ t)) st =
      .ok { start := pre.length + (startCode four).length,
            current := if four = false ∧ a = 0 then pre.length + 4 else pre.length + 3,
            nalus := if st.start < st.current then
              st.nalus ++ [nalRange (pre ++ (startCode four ++ (a :: w) ++ t)) st.start st.current]
              else st.nalus } := by
  have hsc : isStartCode (pre ++ (startCode four ++ (a :: w) ++ t)) st.current = .ok true := by
    rw [isStartCode_drop, hcur, List.drop_left]
    cases four <;> simp [startCode, isStartCode, readByte]
  unfold parseStep
  rw [hsc]
  simp only [hcur, readByte_append]
  cases four
  · by_cases ha : a = 0 <;> simp [startCode, readByte, ha]
  · simp [startCode, readByte]

theorem parseLoop_step (data : List Nat) (fuel : Nat) (st st1 : ParseState)
    (hlt : st.current < data.length) (hstep : parseStep data st = .ok st1) :
    parseLoop data (fuel + 1) st = parseLoop data fuel st1 := by
  simp [parseLoop, hlt, hstep]

/-- From a start code to the end of the well-formed unit that follows it. -/
theorem parseLoop_segment (pre t : List Nat) (four : Bool) (a : Nat) (w : List Nat)
    (hpat : ¬ [0, 0, 1] <:+: a :: w) (hlast : (a :: w).getLast? ≠ some 0)
    (st : ParseState) (hcur : st.current = pre.length) (f : Nat) :
    ∃ c, parseLoop (pre ++ (startCode four ++ (a :: w) ++ t))
        ((startCode four).length + (w.length + 1) + f) st =
      parseLoop (pre ++ (startCode four ++ (a :: w) ++ t)) (f + c)
        { start := (pre ++ startCode four).length,
          current := (pre ++ startCode four).length + (a :: w).length,
          nalus := if st.start < st.current then
              st.nalus ++ [nalRange (pre ++ (startCode four ++ (a :: w) ++ t)) st.start st.current]
              else st.nalus } := by
  have hstep := parseStep_startCode pre t four a w st hcur
  have hdata : pre ++ (startCode four ++ (a :: w) ++ t) = (pre ++ startCode four) ++ (a :: w) ++ t := by
    simp
  have hlt : st.current < (pre ++ (startCode four ++ (a :: w) ++ t)).length := by
    rw [hcur]; simp
  have hin : ∀ k, k < (a :: w).length →
      isStartCode (pre ++ (startCode four ++ (a :: w) ++ t)) ((pre ++ startCode four).length + k)
        = .ok false := by
    intro k hk
    rw [hdata]
    exact isStartCode_inside _ _ _ _ hk hpat hlast
  cases four
  · by_cases ha : a = 0
    · -- three-byte code, unit starting with 0x00: the scan resumes at its second byte
      have hw : 0 < w.length := by
        rcases w with _ | ⟨b, w⟩
        · subst ha; simp at hlast
        · simp
      refine ⟨3, ?_⟩
      rw [show (startCode false).length + (w.length + 1) + f = (w.length + (f + 3)) + 1 by
        simp [startCode]; omega]
      rw [parseLoop_step _ _ _ _ hlt hstep]
      rw [parseLoop_scan _ w.length (f + 3)]
      · congr 1
        simp [ha, startCode]
        omega
      · intro j hj
        convert hin (j + 1) (by simp; omega) using 2
        simp [ha, startCode]
        omega
      · simp [ha, startCode]; omega
    · refine ⟨2, ?_⟩
      rw [show (startCode false).length + (w.length + 1) + f = ((w.length + 1) + (f + 2)) + 1 by
        simp [startCode]; omega]
      rw [parseLoop_step _ _ _ _ hlt hstep]
      rw [parseLoop_scan _ (w.length + 1) (f + 2)]
      · congr 1
        simp [ha, startCode]
      · intro j hj
        convert hin j (by simp; omega) using 2
        simp [ha, startCode]
      · simp [ha, startCode]; omega
  · refine ⟨2, ?_⟩
    rw [show (startCode true).length + (w.length + 1) + f = ((w.length + 2) + (f + 2)) + 1 by
      simp [startCode]; omega]
    rw [parseLoop_step _ _ _ _ hlt hstep]
    rw [parseLoop_scan _ (w.length + 2) (f + 2)]
    · congr 1
      simp [startCode]
      omega
    · intro j hj
      rcases j with _ | j
      · rw [isStartCode_drop]
        simp [startCode, isStartCode, readByte, List.drop_append]
      · convert hin j (by simp; omega) using 2
        simp [startCode]
        omega
    · simp [startCode]; omega

theorem parseRun_segments : ∀ (segs : List (Bool × List Nat)) (pre0 uprev : List Nat)
    (nalus : List (List Nat)) (fuel : Nat),
    (∀ s ∈ segs, WellFormedNal s.2) → (annexB segs).length ≤ fuel →
    parseRun (pre0 ++ uprev ++ annexB segs) fuel
        { start := pre0.length, current := pre0.length + uprev.length, nalus := nalus } =
      .ok (nalus ++ (if uprev = [] then [] else [uprev]) ++ segs.map Prod.snd) := by
  intro segs
  induction segs with
  | nil =>
    intro pre0 uprev nalus fuel _ _
    have hloop : parseLoop (pre0 ++ uprev ++ annexB []) fuel
        { start := pre0.length, current := pre0.length + uprev.length, nalus := nalus } =
        .ok { start := pre0.length, current := pre0.length + uprev.length, nalus := nalus } := by
      cases fuel <;> simp [parseLoop, annexB]
    simp only [parseRun, hloop, parseFinish]
    by_cases hu : uprev = []
    · simp [hu]
    · have hpos : 0 < uprev.length := List.length_pos.mpr hu
      have h1 : ¬ (pre0.length + uprev.length = pre0.length) := by omega
      have h2 : pre0.length < pre0.length + uprev.length ∧
          pre0.length + uprev.length ≤ (pre0 ++ uprev ++ annexB []).length := by
        simp [annexB]; omega
      simp only [h1, h2, if_true, if_false, hu, and_self]
      rw [nalRange_append]
      simp
  | cons s rest ih =>
    intro pre0 uprev nalus fuel hwf hfuel
    obtain ⟨four, u⟩ := s
    have hu : WellFormedNal u := hwf (four, u) (List.mem_cons_self _ _)
    obtain ⟨hne, hpat, hlast⟩ := hu
    obtain ⟨a, w, rfl⟩ := List.exists_cons_of_ne_nil hne
    have hdata : pre0 ++ uprev ++ annexB ((four, a :: w) :: rest) =
        (pre0 ++ uprev) ++ (startCode four ++ (a :: w) ++ annexB rest) := by
      simp [annexB]
    have hdata2 : pre0 ++ uprev ++ annexB ((four, a :: w) :: rest) =
        (pre0 ++ uprev ++ startCode four) ++ (a :: w) ++ annexB rest := by
      simp [annexB]
    obtain ⟨f, hf, hf2⟩ : ∃ f, fuel = (startCode four).length + (w.length + 1) + f ∧
        (annexB rest).length ≤ f := by
      refine ⟨fuel - ((startCode four).length + (w.length + 1)), ?_, ?_⟩ <;>
        · simp [annexB] at hfuel; omega
    obtain ⟨c, hc⟩ := parseLoop_segment (pre0 ++ uprev) (annexB rest) four a w hpat hlast
      { start := pre0.length, current := pre0.length + uprev.length, nalus := nalus }
      (by simp) f
    have hih := ih (pre0 ++ uprev ++ startCode four) (a :: w)
      (nalus ++ (if uprev = [] then [] else [uprev])) (f + c)
      (fun s hs => hwf s (List.mem_cons_of_mem _ hs)) (by omega)
    rw [← hdata2] at hih
    unfold parseRun at hih ⊢
    have hnal : (if pre0.length < pre0.length + uprev.length then
          nalus ++ [nalRange (pre0 ++ uprev ++ annexB ((four, a :: w) :: rest)) pre0.length
            (pre0.length + uprev.length)]
        else nalus) = nalus ++ (if uprev = [] then [] else [uprev]) := by
      rw [nalRange_append]
      by_cases hu : uprev = []
      · simp [hu]
      · have hpos : 0 < uprev.length := List.length_pos.mpr hu
        simp [hu, hpos]
    rw [hf, hdata, hc, ← hdata]
    simp only [hnal]
    rw [hih]
    simp

theorem isStartCode_true_current (data : List Nat) (i : Nat)
    (h : isStartCode data i = .ok true) : i + 2 < data.length := by
  unfold isStartCode readByte at h
  rcases h0 : data[i]? with _ | c0 <;> simp only [h0] at h
  · exact absurd h (by simp)
  by_cases hc0 : c0 = 0
  swap
  · simp [hc0] at h
  rcases h1 : data[i + 1]? with _ | c1 <;> simp only [h1] at h
  · simp [hc0] at h
  by_cases hc1 : c1 = 0
  swap
  · simp [hc0, hc1] at h
  rcases h2 : data[i + 2]? with _ | c2 <;> simp only [h2] at h
  · simp [hc0, hc1] at h
  · exact (List.getElem?_eq_some_iff.mp h2).1

/-- Every iteration of the loop moves `current` forward. -/
theorem parseStep_current_lt (data : List Nat) (st st1 : ParseState)
    (h : parseStep data st = .ok st1) : st.current < st1.current := by
  unfold parseStep at h
  rcases hs : isStartCode data st.current with e | b
  · simp [hs] at h
  · cases b
    · simp only [hs] at h
      cases h
      simp
    · simp only [hs] at h
      rcases h2 : readByte data (st.current + 2) with e | c2
      · simp [h2] at h
      · rcases h3 : readByte data (st.current + 3) with e | c3
        · simp [h2, h3] at h
        · simp only [h2, h3] at h
          cases h
          simp only []
          split <;> omega

theorem readByte_error (data : List Nat) (i : Nat) (e : Fault)
    (h : readByte data i = .error e) : e = .outOfBounds := by
  unfold readByte at h
  split at h
  · cases h
  · cases h; rfl

theorem isStartCode_error (data : List Nat) (i : Nat) (e : Fault)
    (h : isStartCode data i = .error e) : e = .outOfBounds := by
  unfold isStartCode at h
  rcases h0 : readByte data i with e0 | c0 <;> simp only [h0] at h
  · cases h; exact readByte_error _ _ _ h0
  split at h
  · cases h
  rcases h1 : readByte data (i + 1) with e1 | c1 <;> simp only [h1] at h
  · cases h; exact readByte_error _ _ _ h1
  split at h
  · cases h
  rcases h2 : readByte data (i + 2) with e2 | c2 <;> simp only [h2] at h
  · cases h; exact readByte_error _ _ _ h2
  split at h
  · cases h
  split at h
  · cases h
  rcases h3 : readByte data (i + 3) with e3 | c3 <;> simp only [h3] at h
  · cases h; exact readByte_error _ _ _ h3
  · cases h

theorem parseStep_error (data : List Nat) (st : ParseState) (e : Fault)
    (h : parseStep data st = .error e) : e = .outOfBounds := by
  unfold parseStep at h
  rcases hs : isStartCode data st.current with e1 | b
  · simp only [hs] at h
    cases h; exact isStartCode_error _ _ _ hs
  · cases b
    · simp only [hs] at h
      cases h
    · simp only [hs] at h
      rcases h2 : readByte data (st.current + 2) with e2 | c2 <;> simp only [h2] at h
      · cases h; exact readByte_error _ _ _ h2
      rcases h3 : readByte data (st.current + 3) with e3 | c3 <;> simp only [h3] at h
      · cases h; exact readByte_error _ _ _ h3
      · cases h

/-- The iteration budget is never the reason for a failure: with at least as many iterations
as bytes left, the loop of the model ends the way the `while` loop does. -/
theorem parseLoop_fuel (data : List Nat) : ∀ (fuel : Nat) (st : ParseState),
    data.length ≤ st.current + fuel → parseLoop data fuel st ≠ .error .outOfFuel := by
  intro fuel
  induction fuel with
  | zero =>
    intro st h
    have : ¬ st.current < data.length := by omega
    simp [parseLoop, this]
  | succ fuel ih =>
    intro st h
    unfold parseLoop
    by_cases hlt : st.current < data.length
    · simp only [hlt, if_true]
      rcases hs : parseStep data st with e | st1
      · simp only []
        intro he
        cases he
        exact absurd (parseStep_error _ _ _ hs) (by decide)
      · simp only []
        have := parseStep_current_lt data st st1 hs
        exact ih st1 (by omega)
    · simp [hlt]

/-- The function of the model never fails for lack of iterations: it either returns the
vector of units or stops at a read outside the buffer. -/
theorem parse_h264_nals_fuel (data : List Nat) :
    parse_h264_nals data ≠ .error .outOfFuel := by
  unfold parse_h264_nals
  have h := parseLoop_fuel data data.length { start := 0, current := 0, nalus := [] } (by simp)
  rcases hl : parseLoop data data.length { start := 0, current := 0, nalus := [] } with e | st
  · simp only []
    intro he
    cases he
    exact h hl
  · simp only [parseFinish]
    repeat' split
    all_goals simp

/-- **C1.** For every list of well-formed NAL units (each non-empty, free of the pattern
`00 00 01`, not ending in `0x00`) and every choice of a three-byte or four-byte start code in
front of each unit, `parse_h264_nals` applied to the concatenation returns exactly these
units, byte for byte and in their original order, without any start-code byte. -/
theorem parse_h264_nals_annexB (segs : List (Bool × List Nat))
    (hwf : ∀ s ∈ segs, WellFormedNal s.2) :
    parse_h264_nals (annexB segs) = .ok (segs.map Prod.snd) := by
  have h := parseRun_segments segs [] [] [] (annexB segs).length hwf (le_refl _)
  simpa [parseRun, parse_h264_nals] using h

/-- Witness of C1: an SPS-like unit behind a three-byte start code, a PPS-like unit behind a
four-byte one. -/
theorem parse_h264_nals_annexB_witness :
    (∀ s ∈ [(false, [0x67, 0x42, 0, 0x1f]), (true, [0x68, 0xce])], WellFormedNal s.2) ∧
    parse_h264_nals (annexB [(false, [0x67, 0x42, 0, 0x1f]), (true, [0x68, 0xce])]) =
      .ok [[0x67, 0x42, 0, 0x1f], [0x68, 0xce]] :=
  ⟨by decide, parse_h264_nals_annexB _ (by decide)⟩

/-- **C2, as stated, fails.** The two-byte buffer `67 42` contains no start code, and the
parser returns one unit (the whole buffer), not zero units. -/
theorem parse_h264_nals_no_start_code_counterexample :
    NoStartCode [0x67, 0x42] ∧ parse_h264_nals [0x67, 0x42] = .ok [[0x67, 0x42]] ∧
      parse_h264_nals [0x67, 0x42] ≠ .ok [] := by
  decide

/-- **C2, amended.** On a buffer that contains no start code and does not end in a `0x00`
byte, `parse_h264_nals` returns zero units when the buffer is empty and exactly one unit, the
whole buffer, when it is not. -/
theorem parse_h264_nals_no_start_code (data : List Nat) (hno : NoStartCode data)
    (hlast : data.getLast? ≠ some 0) :
    parse_h264_nals data = .ok (if data = [] then [] else [data]) := by
  by_cases hd : data = []
  · subst hd; rfl
  · have hscan := parseLoop_scan data data.length 0 { start := 0, current := 0, nalus := [] }
      (fun j hj => by
        have := isStartCode_inside [] data [] j hj hno.1 hlast
        simpa using this) (by simp)
    have hpos : 0 < data.length := List.length_pos.mpr hd
    have hne : data.length ≠ 0 := by omega
    simp only [Nat.add_zero] at hscan
    unfold parse_h264_nals
    rw [hscan]
    simp [parseLoop, parseFinish, hd, hne, hpos, nalRange]

/-- Witness of the amended C2. -/
theorem parse_h264_nals_no_start_code_witness :
    NoStartCode [0x67, 0, 0, 0x42] ∧ [0x67, 0, 0, 0x42].getLast? ≠ some 0 ∧
      parse_h264_nals [0x67, 0, 0, 0x42] = .ok [[0x67, 0, 0, 0x42]] :=
  ⟨by decide, by decide, parse_h264_nals_no_start_code _ (by decide) (by decide)⟩

/-! ## String search -/

theorem rfindFrom_some (s pat : List Char) : ∀ (n i : Nat), rfindFrom s pat n = some i →
    i ≤ n ∧ pat <+: s.drop i ∧ ∀ j, i < j → j ≤ n → ¬ pat <+: s.drop j := by
  intro n
  induction n with
  | zero =>
    intro i h
    unfold rfindFrom at h
    split at h
    · rename_i hp
      cases h
      refine ⟨le_refl _, by simpa using List.isPrefixOf_iff_prefix.mp hp, ?_⟩
      intro j h1 h2; omega
    · cases h
  | succ n ih =>
    intro i h
    unfold rfindFrom at h
    split at h
    · rename_i hp
      cases h
      refine ⟨le_refl _, List.isPrefixOf_iff_prefix.mp hp, ?_⟩
      intro j h1 h2; omega
    · rename_i hp
      obtain ⟨h1, h2, h3⟩ := ih i h
      refine ⟨by omega, h2, ?_⟩
      intro j hj1 hj2
      by_cases hj : j = n + 1
      · subst hj
        intro hpre
        exact hp (List.isPrefixOf_iff_prefix.mpr hpre)
      · exact h3 j hj1 (by omega)

theorem rfindFrom_none (s pat : List Char) : ∀ (n : Nat), rfindFrom s pat n = none →
    ∀ j, j ≤ n → ¬ pat <+: s.drop j := by
  intro n
  induction n with
  | zero =>
    intro h j hj
    unfold rfindFrom at h
    split at h
    · cases h
    · rename_i hp
      have : j = 0 := by omega
      subst this
      intro hpre
      exact hp (List.isPrefixOf_iff_prefix.mpr (by simpa using hpre))
  | succ n ih =>
    intro h j hj
    unfold rfindFrom at h
    split at h
    · cases h
    · rename_i hp
      by_cases hj' : j = n + 1
      · subst hj'
        intro hpre
        exact hp (List.isPrefixOf_iff_prefix.mpr hpre)
      · exact ih h j (by omega)

/-- An occurrence of a non-empty pattern lies inside the string. -/
theorem occurrence_le (s pat : List Char) (j : Nat) (hne : pat ≠ [])
    (h : pat <+: s.drop j) : j + pat.length ≤ s.length := by
  have h1 := h.length_le
  have hpos : 0 < pat.length := List.length_pos.mpr hne
  simp at h1
  omega

theorem infix_iff_occurrence (s pat : List Char) :
    pat <:+: s ↔ ∃ j, pat <+: s.drop j := by
  constructor
  · rintro ⟨a, b, rfl⟩
    exact ⟨a.length, by simp⟩
  · rintro ⟨j, h⟩
    exact h.isInfix.trans (List.drop_suffix j s).isInfix

/-- What `rfind` returns, when it returns a position: the last occurrence. -/
theorem rfind_some (s pat : List Char) (i : Nat) (hne : pat ≠ []) (h : rfind s pat = some i) :
    pat <+: s.drop i ∧ ∀ j, i < j → ¬ pat <+: s.drop j := by
  unfold rfind at h
  split at h
  · rename_i hle
    obtain ⟨h1, h2, h3⟩ := rfindFrom_some s pat _ i h
    refine ⟨h2, ?_⟩
    intro j hj hpre
    have := occurrence_le s pat j hne hpre
    exact h3 j hj (by omega) hpre
  · cases h

/-- What `rfind` returns, when it returns `npos`: there is no occurrence. -/
theorem rfind_none (s pat : List Char) (hne : pat ≠ []) (h : rfind s pat = none) :
    ¬ pat <:+: s := by
  rw [infix_iff_occurrence]
  rintro ⟨j, hpre⟩
  have hle := occurrence_le s pat j hne hpre
  unfold rfind at h
  split at h
  · exact rfindFrom_none s pat _ h j (by omega) hpre
  · omega

/-- The position `rfind` returns is determined by being the last occurrence. -/
theorem rfind_eq_some (s pat : List Char) (i : Nat) (hne : pat ≠ [])
    (hocc : pat <+: s.drop i) (hlast : ∀ j, i < j → ¬ pat <+: s.drop j) :
    rfind s pat = some i := by
  rcases h : rfind s pat with _ | i'
  · exact absurd ((infix_iff_occurrence s pat).mpr ⟨i, hocc⟩) (rfind_none s pat hne h)
  · obtain ⟨h1, h2⟩ := rfind_some s pat i' hne h
    rcases Nat.lt_trichotomy i i' with hlt | heq | hgt
    · exact absurd h1 (hlast i' hlt)
    · rw [heq]
    · exact absurd hocc (h2 i hgt)

/-! ## Strings padded with NUL characters -/

theorem c_str_padded (E : List Char) (k : Nat) (hE : NUL ∉ E) :
    c_str (E ++ List.replicate k NUL) = E := by
  unfold c_str
  induction E with
  | nil =>
    cases k with
    | zero => rfl
    | succ k => simp [List.replicate_succ, List.takeWhile]
  | cons a E ih =>
    have ha : a ≠ NUL := fun h => hE (by simp [h])
    have hE' : NUL ∉ E := fun h => hE (List.mem_cons_of_mem _ h)
    have h := ih hE'
    simp only [List.cons_append, List.takeWhile_cons]
    simp only [ne_eq, ha, not_false_eq_true, decide_True, if_true]
    rw [h]

theorem c_str_not_mem (buf : List Char) : NUL ∉ c_str buf := by
  unfold c_str
  intro h
  have := List.mem_takeWhile_imp h
  simp at this

theorem c_str_of_not_mem (s : List Char) (h : NUL ∉ s) : c_str s = s := by
  simpa using c_str_padded s 0 h

/-- An occurrence of a NUL-free pattern in a padded string is an occurrence in the string. -/
theorem occurrence_padded (E pat : List Char) (k j : Nat) (hne : pat ≠ []) (hpat : NUL ∉ pat) :
    pat <+: (E ++ List.replicate k NUL).drop j ↔ pat <+: E.drop j := by
  constructor
  · intro h
    by_cases hj : j ≤ E.length
    · rw [List.drop_append_of_le_length hj] at h
      rcases List.prefix_or_prefix_of_prefix h (List.prefix_append _ _) with h1 | h1
      · exact h1
      · obtain ⟨r, hr⟩ := h1
        obtain ⟨r2, hr2⟩ := h
        rw [← hr, List.append_assoc] at hr2
        have hr3 := List.append_cancel_left hr2
        rcases r with _ | ⟨c, r⟩
        · simp at hr; rw [hr]
        · exfalso
          have hc : c ∈ List.replicate k NUL := by rw [← hr3]; simp
          have hc2 : c = NUL := (List.mem_replicate.mp hc).2
          apply hpat
          rw [← hr, ← hc2]; simp
    · exfalso
      have hlen : E.length ≤ j := by omega
      rw [List.drop_append_eq_append_drop, List.drop_eq_nil_of_le hlen, List.nil_append,
        List.drop_replicate] at h
      obtain ⟨c, rest, rfl⟩ := List.exists_cons_of_ne_nil hne
      have hc : c ∈ List.replicate (k - (j - E.length)) NUL := h.subset (by simp)
      exact hpat (by rw [(List.mem_replicate.mp hc).2.symm]; simp)
  · intro h
    have hj : j ≤ E.length := by
      have := occurrence_le E pat j hne h
      omega
    rw [List.drop_append_of_le_length hj]
    exact h.trans (List.prefix_append _ _)

theorem rfind_padded (E pat : List Char) (k : Nat) (hne : pat ≠ []) (hpat : NUL ∉ pat) :
    rfind (E ++ List.replicate k NUL) pat = rfind E pat := by
  rcases h : rfind E pat with _ | i
  · rcases h2 : rfind (E ++ List.replicate k NUL) pat with _ | i
    · rfl
    · exfalso
      obtain ⟨h3, _⟩ := rfind_some _ pat i hne h2
      rw [occurrence_padded E pat k i hne hpat] at h3
      exact rfind_none E pat hne h ((infix_iff_occurrence E pat).mpr ⟨i, h3⟩)
  · obtain ⟨h1, h2⟩ := rfind_some E pat i hne h
    apply rfind_eq_some _ _ _ hne
    · rw [occurrence_padded E pat k i hne hpat]; exact h1
    · intro j hj
      rw [occurrence_padded E pat k j hne hpat]; exact h2 j hj

/-! ## The splice of `Connect` -/

theorem group_line_facts : "a=group:LS 0 1".toList ≠ [] ∧ NUL ∉ "a=group:LS 0 1".toList ∧
    "a=group:LS 0 1".toList.length = 14 := by decide

theorem packetization_facts : "packetization".toList ≠ [] ∧ NUL ∉ "packetization".toList ∧
    "packetization".toList.length = 13 := by decide

/-- Without the text `a=group:LS 0 1` nothing is erased. -/
theorem munge_erase_none (offer_sdp sprop : List Char)
    (h : rfind (c_str offer_sdp) "a=group:LS 0 1".toList = none) :
    munge_erase offer_sdp sprop = c_str offer_sdp ++ List.replicate sprop.length NUL := by
  unfold munge_erase
  simp only []
  rw [rfind_padded _ _ _ group_line_facts.1 group_line_facts.2.1, h]

/-- With the text `a=group:LS 0 1`, the 16 characters at its last occurrence are erased (fewer
when the string ends earlier; the erasure then eats into the padding). -/
theorem munge_erase_some (offer_sdp sprop : List Char) (i : Nat)
    (h : rfind (c_str offer_sdp) "a=group:LS 0 1".toList = some i) :
    munge_erase offer_sdp sprop =
      ((c_str offer_sdp).take i ++ (c_str offer_sdp).drop (i + 16)) ++
        List.replicate (sprop.length - (i + 16 - (c_str offer_sdp).length)) NUL := by
  unfold munge_erase
  simp only []
  rw [rfind_padded _ _ _ group_line_facts.1 group_line_facts.2.1, h]
  simp only [erase]
  have hocc := (rfind_some _ _ i group_line_facts.1 h).1
  have hle := occurrence_le _ _ i group_line_facts.1 hocc
  rw [List.take_append_of_le_length (by omega), List.drop_append_eq_append_drop,
    List.drop_replicate, List.append_assoc]

/-- The text left by the erasure, without the padding. -/
theorem c_str_munge_erase (offer_sdp sprop : List Char) :
    ∃ k, munge_erase offer_sdp sprop =
      c_str (munge_erase offer_sdp sprop) ++ List.replicate k NUL := by
  rcases h : rfind (c_str offer_sdp) "a=group:LS 0 1".toList with _ | i
  · refine ⟨sprop.length, ?_⟩
    rw [munge_erase_none _ _ h, c_str_padded _ _ (c_str_not_mem _)]
  · refine ⟨sprop.length - (i + 16 - (c_str offer_sdp).length), ?_⟩
    rw [munge_erase_some _ _ i h, c_str_padded]
    intro hmem
    rcases List.mem_append.mp hmem with h1 | h1
    · exact c_str_not_mem _ (List.mem_of_mem_take h1)
    · exact c_str_not_mem _ (List.mem_of_mem_drop h1)

/-- The body posted, from the text `E` left by the erasure: the parameter sets are inserted
at the last `packetization` of `E`, if there is one. -/
theorem post_body_padded (offer_sdp sprop E : List Char) (k : Nat)
    (hM : munge_erase offer_sdp sprop = E ++ List.replicate k NUL) (hE : NUL ∉ E)
    (hs : sprop ≠ []) (hs0 : NUL ∉ sprop) :
    post_body offer_sdp sprop =
      match rfind E "packetization".toList with
      | some index => E.take index ++ sprop ++ E.drop index
      | none => E := by
  unfold post_body munged_sdp
  simp only [hs, if_false, hM]
  rw [rfind_padded _ _ _ packetization_facts.1 packetization_facts.2.1]
  rcases h : rfind E "packetization".toList with _ | index
  · simp only []
    exact c_str_padded _ _ hE
  · simp only [insert]
    have hocc := (rfind_some _ _ index packetization_facts.1 h).1
    have hle := occurrence_le _ _ index packetization_facts.1 hocc
    rw [List.take_append_of_le_length (by omega), List.drop_append_of_le_length (by omega),
      ← List.append_assoc]
    apply c_str_padded
    intro hmem
    rcases List.mem_append.mp hmem with h1 | h1
    · rcases List.mem_append.mp h1 with h2 | h2
      · exact hE (List.mem_of_mem_take h2)
      · exact hs0 h2
    · exact hE (List.mem_of_mem_drop h1)

/-- In `X ++ sprop ++ Y`, where `sprop` has no border and does not occur in `X ++ Y`, every
occurrence of `sprop` is at the position `X.length`. -/
theorem occurrence_unique_of_unbordered (X Y sprop : List Char) (hu : Unbordered sprop)
    (hXY : ¬ sprop <:+: X ++ Y) (j : Nat) :
    sprop <+: (X ++ sprop ++ Y).drop j ↔ j = X.length := by
  constructor
  · intro h
    have htake : (( X ++ sprop ++ Y).drop j).take sprop.length = sprop :=
      (List.prefix_iff_eq_take.mp h).symm
    by_contra hj
    rcases Nat.lt_or_gt_of_ne hj with hlt | hgt
    · -- the occurrence starts inside `X`
      have hd : (X ++ sprop ++ Y).drop j = X.drop j ++ (sprop ++ Y) := by
        rw [List.append_assoc, List.drop_append_of_le_length (by omega)]
      rw [hd] at htake
      by_cases hin : j + sprop.length ≤ X.length
      · apply hXY
        have h1 : sprop <+: X.drop j := by
          rw [List.take_append_of_le_length (by rw [List.length_drop]; omega)] at htake
          rw [← htake]
          exact List.take_prefix _ _
        exact (h1.isInfix.trans (List.drop_suffix j X).isInfix).trans
          (List.prefix_append X Y).isInfix
      · have h2 := congrArg (List.drop (X.length - j)) htake
        rw [List.drop_take, List.drop_append_of_le_length (by rw [List.length_drop]),
          List.drop_of_length_le (by rw [List.length_drop]), List.nil_append,
          List.take_append_of_le_length (by omega)] at h2
        refine hu (sprop.length - (X.length - j)) (by omega) (by omega) ?_
        rw [h2]
        congr 1
        omega
    · -- the occurrence starts after the beginning of the copy
      by_cases hin : X.length + sprop.length ≤ j
      · apply hXY
        have hd : (X ++ sprop ++ Y).drop j = Y.drop (j - X.length - sprop.length) := by
          rw [List.drop_append_eq_append_drop, List.drop_of_length_le (by simp; omega),
            List.nil_append]
          congr 1
          simp
          omega
        rw [hd] at h
        exact (h.isInfix.trans (List.drop_suffix _ Y).isInfix).trans
          (List.suffix_append X Y).isInfix
      · have hd : (X ++ sprop ++ Y).drop j = sprop.drop (j - X.length) ++ Y := by
          rw [List.append_assoc, List.drop_append_eq_append_drop,
            List.drop_of_length_le (by omega), List.nil_append,
            List.drop_append_of_le_length (by omega)]
        rw [hd] at htake
        have h2 := congrArg (List.take (sprop.length - (j - X.length))) htake
        rw [List.take_take, Nat.min_eq_left (by omega),
          List.take_append_of_le_length (by rw [List.length_drop]),
          List.take_of_length_le (by rw [List.length_drop])] at h2
        refine hu (sprop.length - (j - X.length)) (by omega) (by omega) ?_
        rw [← h2]
        congr 1
        omega
  · intro h
    subst h
    simp

set_option maxRecDepth 100000 in
/-- **C3, as stated, fails.** From extra data that holds the picture parameter set
`68 CE 06 E2` twice, `Init` builds the parameter-set string `aM4G4g==;aM4G4g==;`. The offer
below contains `packetization` in its video section and does not contain that string, yet
the body posted contains it at two places: at position 137, where the copy was inserted, and
at position 128, where the `aM4G4g==;` that precedes `packetization` in the offer is followed
by the first half of the copy. -/
theorem Connect_splice_insert_counterexample :
    (Init { sampleEnv with video_encoder := some (some
        [0, 0, 1, 0x68, 0xce, 0x06, 0xe2, 0, 0, 1, 0x68, 0xce, 0x06, 0xe2]) }
      WHIPOutput.fresh).map (fun r => (r.1, r.2.1.sprop_parameter_sets))
      = .ok (true, "aM4G4g==;aM4G4g==;".toList) ∧
    "aM4G4g==;aM4G4g==;".toList ≠ [] ∧
    "packetization".toList <:+: ("v=0\r\nm=audio 9 UDP/TLS/RTP/SAVPF 111\r\na=mid:0\r\n" ++
      "m=video 9 UDP/TLS/RTP/SAVPF 96\r\na=mid:1\r\n" ++
      "a=fmtp:96 sprop-parameter-sets=Z0LAHw==,aM4G4g==;packetization-mode=1\r\n").toList ∧
    ¬ "aM4G4g==;aM4G4g==;".toList <:+: ("v=0\r\nm=audio 9 UDP/TLS/RTP/SAVPF 111\r\na=mid:0\r\n" ++
      "m=video 9 UDP/TLS/RTP/SAVPF 96\r\na=mid:1\r\n" ++
      "a=fmtp:96 sprop-parameter-sets=Z0LAHw==,aM4G4g==;packetization-mode=1\r\n").toList ∧
    post_body ("v=0\r\nm=audio 9 UDP/TLS/RTP/SAVPF 111\r\na=mid:0\r\n" ++
      "m=video 9 UDP/TLS/RTP/SAVPF 96\r\na=mid:1\r\n" ++
      "a=fmtp:96 sprop-parameter-sets=Z0LAHw==,aM4G4g==;packetization-mode=1\r\n").toList
      "aM4G4g==;aM4G4g==;".toList =
      ("v=0\r\nm=audio 9 UDP/TLS/RTP/SAVPF 111\r\na=mid:0\r\n" ++
      "m=video 9 UDP/TLS/RTP/SAVPF 96\r\na=mid:1\r\n" ++
      "a=fmtp:96 sprop-parameter-sets=Z0LAHw==,aM4G4g==;aM4G4g==;aM4G4g==;" ++
      "packetization-mode=1\r\n").toList ∧
    "aM4G4g==;aM4G4g==;".toList <+: (post_body
      ("v=0\r\nm=audio 9 UDP/TLS/RTP/SAVPF 111\r\na=mid:0\r\n" ++
      "m=video 9 UDP/TLS/RTP/SAVPF 96\r\na=mid:1\r\n" ++
      "a=fmtp:96 sprop-parameter-sets=Z0LAHw==,aM4G4g==;packetization-mode=1\r\n").toList
      "aM4G4g==;aM4G4g==;".toList).drop 128 ∧
    "aM4G4g==;aM4G4g==;".toList <+: (post_body
      ("v=0\r\nm=audio 9 UDP/TLS/RTP/SAVPF 111\r\na=mid:0\r\n" ++
      "m=video 9 UDP/TLS/RTP/SAVPF 96\r\na=mid:1\r\n" ++
      "a=fmtp:96 sprop-parameter-sets=Z0LAHw==,aM4G4g==;packetization-mode=1\r\n").toList
      "aM4G4g==;aM4G4g==;".toList).drop 137 := by
  decide

/-- **C3, amended.** For a non-empty parameter-set string without NUL and an offer that still
contains `packetization` once the 16 characters at its last `a=group:LS 0 1` are erased
(nothing is erased from an offer without that text): the body posted is that text with one
copy of the parameter-set string inserted, and the copy ends exactly where the last
`packetization` begins. The copy is the only occurrence of the parameter-set string in the body
whenever that text does not contain the parameter-set string and no proper, non-empty prefix
of the parameter-set string is also a suffix of it. -/
theorem Connect_splice_insert (offer_sdp sprop : List Char) (hs : sprop ≠ [])
    (hs0 : NUL ∉ sprop)
    (hpk : "packetization".toList <:+: c_str (munge_erase offer_sdp sprop)) :
    (¬ "a=group:LS 0 1".toList <:+: c_str offer_sdp →
      c_str (munge_erase offer_sdp sprop) = c_str offer_sdp) ∧
    ∃ X Y, c_str (munge_erase offer_sdp sprop) = X ++ Y ∧
      post_body offer_sdp sprop = X ++ sprop ++ Y ∧
      "packetization".toList <+: Y ∧
      (∀ j, 0 < j → ¬ "packetization".toList <+: Y.drop j) ∧
      (Unbordered sprop → ¬ sprop <:+: c_str (munge_erase offer_sdp sprop) →
        ∀ j, sprop <+: (post_body offer_sdp sprop).drop j ↔ j = X.length) := by
  constructor
  · intro hg
    rcases h : rfind (c_str offer_sdp) "a=group:LS 0 1".toList with _ | i
    · rw [munge_erase_none _ _ h, c_str_padded _ _ (c_str_not_mem _)]
    · exact absurd ((infix_iff_occurrence _ _).mpr
        ⟨i, (rfind_some _ _ i group_line_facts.1 h).1⟩) hg
  · obtain ⟨k, hk⟩ := c_str_munge_erase offer_sdp sprop
    have hbody := post_body_padded offer_sdp sprop _ k hk (c_str_not_mem _) hs hs0
    rcases h : rfind (c_str (munge_erase offer_sdp sprop)) "packetization".toList with _ | index
    · exact absurd hpk (rfind_none _ _ packetization_facts.1 h)
    · rw [h] at hbody
      simp only [] at hbody
      obtain ⟨h1, h2⟩ := rfind_some _ _ index packetization_facts.1 h
      refine ⟨_, _, (List.take_append_drop index _).symm, hbody, h1, ?_, ?_⟩
      · intro j hj
        rw [List.drop_drop]
        exact h2 (index + j) (by omega)
      · intro hu hE j
        rw [hbody]
        exact occurrence_unique_of_unbordered _ _ sprop hu
          (by rw [List.take_append_drop]; exact hE) j

set_option maxRecDepth 100000 in
/-- Witness of the amended C3: an offer with a CRLF-terminated `a=group:LS 0 1` line and the
parameter-set string `Init` builds from one SPS and one PPS; the copy is the only occurrence
of the string in the body. -/
theorem Connect_splice_insert_witness :
    "sprop-parameter-sets=Z0LAHw==,aM4G4g==;".toList ≠ [] ∧
    NUL ∉ "sprop-parameter-sets=Z0LAHw==,aM4G4g==;".toList ∧
    "packetization".toList <:+: c_str (munge_erase
      "v=0\r\na=group:LS 0 1\r\nm=video 9 UDP 96\r\na=fmtp:96 x=1;packetization-mode=1\r\n".toList
      "sprop-parameter-sets=Z0LAHw==,aM4G4g==;".toList) ∧
    Unbordered "sprop-parameter-sets=Z0LAHw==,aM4G4g==;".toList ∧
    ¬ "sprop-parameter-sets=Z0LAHw==,aM4G4g==;".toList <:+: c_str (munge_erase
      "v=0\r\na=group:LS 0 1\r\nm=video 9 UDP 96\r\na=fmtp:96 x=1;packetization-mode=1\r\n".toList
      "sprop-parameter-sets=Z0LAHw==,aM4G4g==;".toList) ∧
    ∃ X Y, c_str (munge_erase
        "v=0\r\na=group:LS 0 1\r\nm=video 9 UDP 96\r\na=fmtp:96 x=1;packetization-mode=1\r\n".toList
        "sprop-parameter-sets=Z0LAHw==,aM4G4g==;".toList) = X ++ Y ∧
      post_body
        "v=0\r\na=group:LS 0 1\r\nm=video 9 UDP 96\r\na=fmtp:96 x=1;packetization-mode=1\r\n".toList
        "sprop-parameter-sets=Z0LAHw==,aM4G4g==;".toList =
          X ++ "sprop-parameter-sets=Z0LAHw==,aM4G4g==;".toList ++ Y ∧
      "packetization".toList <+: Y ∧
      ∀ j, "sprop-parameter-sets=Z0LAHw==,aM4G4g==;".toList <+: (post_body
        "v=0\r\na=group:LS 0 1\r\nm=video 9 UDP 96\r\na=fmtp:96 x=1;packetization-mode=1\r\n".toList
        "sprop-parameter-sets=Z0LAHw==,aM4G4g==;".toList).drop j ↔ j = X.length :=
  ⟨by decide, by decide, by decide, by decide, by decide,
    by
      obtain ⟨_, X, Y, h1, h2, h3, _, h5⟩ := Connect_splice_insert
        "v=0\r\na=group:LS 0 1\r\nm=video 9 UDP 96\r\na=fmtp:96 x=1;packetization-mode=1\r\n".toList
        "sprop-parameter-sets=Z0LAHw==,aM4G4g==;".toList (by decide) (by decide) (by decide)
      exact ⟨X, Y, h1, h2, h3, h5 (by decide) (by decide)⟩⟩

/-- An occurrence of `T` in `U ++ V` lies in `U`, lies in `V`, or straddles the junction. -/
theorem infix_append_cases (T U V : List Char) (h : T <:+: U ++ V) :
    T <:+: U ∨ T <:+: V ∨
      ∃ T1 T2, T = T1 ++ T2 ∧ T1 ≠ [] ∧ T2 ≠ [] ∧ T1 <:+ U ∧ T2 <+: V := by
  obtain ⟨a, b, hab⟩ := h
  rw [List.append_assoc, List.append_eq_append_iff] at hab
  rcases hab with ⟨m, hU, hm⟩ | ⟨m, ha, hV⟩
  · rw [List.append_eq_append_iff] at hm
    rcases hm with ⟨n, hm2, hb⟩ | ⟨n, hT, hV⟩
    · left
      exact ⟨a, n, by rw [hU, hm2]; simp⟩
    · by_cases hm0 : m = []
      · subst hm0
        right; left
        exact ⟨[], b, by rw [hV, hT]; simp⟩
      · by_cases hn0 : n = []
        · subst hn0
          left
          exact ⟨a, [], by rw [hU, hT]; simp⟩
        · right; right
          exact ⟨m, n, hT, hm0, hn0, ⟨a, hU.symm⟩, ⟨b, hV.symm⟩⟩
  · right; left
    exact ⟨m, b, by rw [hV]; simp⟩

theorem group_line_last (B : List Char) (hB : ¬ "a=group:LS 0 1".toList <:+: B) (m : Nat)
    (hm : 0 < m) :
    ¬ "a=group:LS 0 1".toList <+: ("a=group:LS 0 1\r\n".toList ++ B).drop m := by
  intro h
  by_cases hm16 : 16 ≤ m
  · apply hB
    rw [List.drop_append_eq_append_drop] at h
    have h16 : "a=group:LS 0 1\r\n".toList.length = 16 := by decide
    rw [List.drop_eq_nil_of_le (by omega), List.nil_append] at h
    exact (infix_iff_occurrence _ _).mpr ⟨_, h⟩
  · have hfact : ∀ k, k < 16 → 0 < k → "a=group:LS 0 1\r\n".toList.drop k ≠ [] ∧
        ("a=group:LS 0 1\r\n".toList.drop k).head? ≠ some 'a' := by decide
    obtain ⟨hne, hhead⟩ := hfact m (by omega) hm
    obtain ⟨c, rest, hc⟩ := List.exists_cons_of_ne_nil hne
    have hca : c ≠ 'a' := by
      intro hc2; apply hhead; rw [hc, hc2]; rfl
    have h16 : "a=group:LS 0 1\r\n".toList.length = 16 := by decide
    rw [List.drop_append_of_le_length (by omega), hc] at h
    have hG : "a=group:LS 0 1".toList = 'a' :: "=group:LS 0 1".toList := by decide
    rw [hG, List.cons_append, List.cons_prefix_cons] at h
    exact hca h.1.symm


theorem group_line_tails :
    (Char.ofNat 10) ∉ "a=group:LS 0 1".toList ∧ ' ' ∈ "a=group:LS 0 1".toList ∧
    (∀ T ∈ "a=group:LS 0 1".toList.tails, T ≠ [] →
      ¬ T <+: "packetization".toList ∧ ¬ "packetization".toList <+: T) ∧
    (∀ T ∈ "a=group:LS 0 1".toList.tails, T ≠ [] → T.head? = some '1' ∨ ' ' ∈ T) := by
  decide

/-- The text left when the 16 characters of a CRLF-terminated `a=group:LS 0 1` line are
erased does not contain `a=group:LS 0 1`, if the line stood at the start of a line and the text
occurs nowhere else. -/
theorem group_line_absent (A B : List Char) (hA : ¬ "a=group:LS 0 1".toList <:+: A)
    (hB : ¬ "a=group:LS 0 1".toList <:+: B)
    (hline : A = [] ∨ A.getLast? = some (Char.ofNat 10)) :
    ¬ "a=group:LS 0 1".toList <:+: A ++ B := by
  intro h
  rcases infix_append_cases _ _ _ h with h1 | h1 | ⟨T1, T2, hT, hT1, hT2, hsuf, hpre⟩
  · exact hA h1
  · exact hB h1
  · rcases hline with hl | hl
    · subst hl
      exact hT1 (List.suffix_nil.mp hsuf)
    · obtain ⟨a, ha⟩ := hsuf
      have hlast : (a ++ T1).getLast? = T1.getLast? := by
        rw [List.getLast?_append]
        rcases hx : T1.getLast? with _ | x
        · exact absurd (List.getLast?_eq_none_iff.mp hx) hT1
        · simp
      rw [ha, hl] at hlast
      have hmem : (Char.ofNat 10) ∈ T1 := List.mem_of_getLast?_eq_some hlast.symm
      exact group_line_tails.1 (by rw [hT]; exact List.mem_append_left _ hmem)

/-- Inserting a parameter-set string without a space, and not beginning with `1`, in front of
`packetization` does not create the text `a=group:LS 0 1`. -/
theorem group_line_absent_insert (X Y sprop : List Char)
    (hXY : ¬ "a=group:LS 0 1".toList <:+: X ++ Y) (hY : "packetization".toList <+: Y)
    (hsp : ' ' ∉ sprop) (h1 : sprop.head? ≠ some '1') :
    ¬ "a=group:LS 0 1".toList <:+: X ++ sprop ++ Y := by
  have hX' : ¬ "a=group:LS 0 1".toList <:+: X := fun h =>
    hXY (h.trans (List.prefix_append X Y).isInfix)
  have hY' : ¬ "a=group:LS 0 1".toList <:+: Y := fun h =>
    hXY (h.trans (List.suffix_append X Y).isInfix)
  -- a non-empty end of the text cannot run into `packetization`
  have hrun : ∀ T3, T3 <:+ "a=group:LS 0 1".toList → T3 ≠ [] → ¬ T3 <+: Y := by
    intro T3 hsuf hne hpre
    have := group_line_tails.2.2.1 T3 ((List.mem_tails _ _).mpr hsuf) hne
    rcases List.prefix_or_prefix_of_prefix hpre hY with h | h
    · exact this.1 h
    · exact this.2 h
  -- a non-empty end of the text cannot be the beginning of the parameter sets
  have hbeg : ∀ T2, T2 <:+ "a=group:LS 0 1".toList → T2 ≠ [] → ¬ T2 <+: sprop := by
    intro T2 hsuf hne hpre
    rcases group_line_tails.2.2.2 T2 ((List.mem_tails _ _).mpr hsuf) hne with h | h
    · obtain ⟨r, hr⟩ := hpre
      apply h1
      rw [← hr]
      rcases T2 with _ | ⟨c, T2⟩
      · exact absurd rfl hne
      · simpa using h
    · exact hsp (hpre.subset h)
  intro h
  rw [List.append_assoc] at h
  rcases infix_append_cases _ _ _ h with h2 | h2 | ⟨T1, T2, hT, hT1, hT2, hsuf, hpre⟩
  · exact hX' h2
  · rcases infix_append_cases _ _ _ h2 with h3 | h3 | ⟨T1, T2, hT, hT1, hT2, hsuf, hpre⟩
    · exact hsp (h3.subset group_line_tails.2.1)
    · exact hY' h3
    · exact hrun T2 ⟨T1, hT.symm⟩ hT2 hpre
  · rcases List.prefix_or_prefix_of_prefix hpre (List.prefix_append sprop Y) with h3 | h3
    · exact hbeg T2 ⟨T1, hT.symm⟩ hT2 h3
    · obtain ⟨T3, hT3⟩ := h3
      by_cases hT30 : T3 = []
      · subst hT30
        simp at hT3
        exact hbeg T2 ⟨T1, hT.symm⟩ hT2 (by rw [hT3])
      · apply hrun T3 ⟨T1 ++ sprop, by rw [hT, ← hT3]; simp⟩ hT30
        rw [← hT3] at hpre
        exact (List.prefix_append_right_inj sprop).mp hpre


/-- **C4, as stated, fails.** An offer with the line `a=group:LS 0 1` twice: only the last
occurrence is erased, and the body posted still contains the text. -/
theorem Connect_splice_group_line_counterexample :
    "x".toList ≠ [] ∧
    "a=group:LS 0 1".toList <:+: "v=0\r\na=group:LS 0 1\r\na=group:LS 0 1\r\n".toList ∧
    post_body "v=0\r\na=group:LS 0 1\r\na=group:LS 0 1\r\n".toList "x".toList =
      "v=0\r\na=group:LS 0 1\r\n".toList ∧
    "a=group:LS 0 1".toList <:+:
      post_body "v=0\r\na=group:LS 0 1\r\na=group:LS 0 1\r\n".toList "x".toList := by
  decide

/-- **C4, amended.** For a non-empty parameter-set string without NUL and an offer whose
last `a=group:LS 0 1` is followed by CR LF: exactly these 16 characters, the line and its
terminator, are erased; the body posted is the rest of the offer, `A ++ B`, unchanged or with
the parameter-set string inserted in front of a `packetization`. If moreover the text occurs
nowhere else in the offer and stands at the start of a line, and the parameter-set string has
no space in it and does not begin with `1`, the body posted does not contain
`a=group:LS 0 1`. -/
theorem Connect_splice_group_line (offer_sdp sprop A B : List Char) (hs : sprop ≠ [])
    (hs0 : NUL ∉ sprop)
    (hoffer : c_str offer_sdp = A ++ ("a=group:LS 0 1\r\n".toList ++ B))
    (hB : ¬ "a=group:LS 0 1".toList <:+: B) :
    c_str (munge_erase offer_sdp sprop) = A ++ B ∧
    ((¬ "packetization".toList <:+: A ++ B ∧ post_body offer_sdp sprop = A ++ B) ∨
      ∃ X Y, A ++ B = X ++ Y ∧ post_body offer_sdp sprop = X ++ sprop ++ Y ∧
        "packetization".toList <+: Y) ∧
    (¬ "a=group:LS 0 1".toList <:+: A → (A = [] ∨ A.getLast? = some (Char.ofNat 10)) →
      ' ' ∉ sprop → sprop.head? ≠ some '1' →
      ¬ "a=group:LS 0 1".toList <:+: post_body offer_sdp sprop) := by
  have hnul : NUL ∉ A ++ B := by
    intro hm
    apply c_str_not_mem offer_sdp
    rw [hoffer]
    rcases List.mem_append.mp hm with h | h
    · exact List.mem_append_left _ h
    · exact List.mem_append_right _ (List.mem_append_right _ h)
  have hfind : rfind (c_str offer_sdp) "a=group:LS 0 1".toList = some A.length := by
    apply rfind_eq_some _ _ _ group_line_facts.1
    · rw [hoffer, List.drop_left]
      have hsplit : "a=group:LS 0 1\r\n".toList = "a=group:LS 0 1".toList ++ "\r\n".toList := by
        decide
      rw [hsplit, List.append_assoc]
      exact List.prefix_append _ _
    · intro j hj
      obtain ⟨m, rfl⟩ : ∃ m, j = A.length + m := ⟨j - A.length, by omega⟩
      rw [hoffer, ← List.drop_drop, List.drop_left]
      exact group_line_last B hB m (by omega)
  have hM := munge_erase_some offer_sdp sprop A.length hfind
  have htake : (c_str offer_sdp).take A.length = A := by
    rw [hoffer, List.take_left]
  have hdrop : (c_str offer_sdp).drop (A.length + 16) = B := by
    rw [hoffer, ← List.drop_drop, List.drop_left]
    have h16 : "a=group:LS 0 1\r\n".toList.length = 16 := by decide
    rw [← h16, List.drop_left]
  rw [htake, hdrop] at hM
  have hE : c_str (munge_erase offer_sdp sprop) = A ++ B := by
    rw [hM, c_str_padded _ _ hnul]
  have hbody := post_body_padded offer_sdp sprop (A ++ B) _ hM hnul hs hs0
  refine ⟨hE, ?_, ?_⟩
  · rcases h : rfind (A ++ B) "packetization".toList with _ | index
    · left
      rw [h] at hbody
      exact ⟨rfind_none _ _ packetization_facts.1 h, hbody⟩
    · right
      rw [h] at hbody
      exact ⟨_, _, (List.take_append_drop index _).symm, hbody,
        (rfind_some _ _ index packetization_facts.1 h).1⟩
  · intro hA hline hsp h1
    have hAB := group_line_absent A B hA hB hline
    rcases h : rfind (A ++ B) "packetization".toList with _ | index
    · rw [h] at hbody
      simp only [] at hbody
      rw [hbody]
      exact hAB
    · rw [h] at hbody
      simp only [] at hbody
      rw [hbody]
      apply group_line_absent_insert _ _ _ _
        (rfind_some _ _ index packetization_facts.1 h).1 hsp h1
      rw [List.take_append_drop]
      exact hAB

/-- Witness of the amended C4. -/
theorem Connect_splice_group_line_witness :
    "sprop-parameter-sets=Z0LAHw==,aM4G4g==;".toList ≠ [] ∧
    NUL ∉ "sprop-parameter-sets=Z0LAHw==,aM4G4g==;".toList ∧
    c_str "v=0\r\na=group:LS 0 1\r\nm=video 9 UDP 96\r\na=fmtp:96 x=1;packetization-mode=1\r\n".toList =
      "v=0\r\n".toList ++ ("a=group:LS 0 1\r\n".toList ++
        "m=video 9 UDP 96\r\na=fmtp:96 x=1;packetization-mode=1\r\n".toList) ∧
    ¬ "a=group:LS 0 1".toList <:+:
      "m=video 9 UDP 96\r\na=fmtp:96 x=1;packetization-mode=1\r\n".toList ∧
    c_str (munge_erase
      "v=0\r\na=group:LS 0 1\r\nm=video 9 UDP 96\r\na=fmtp:96 x=1;packetization-mode=1\r\n".toList
      "sprop-parameter-sets=Z0LAHw==,aM4G4g==;".toList) =
      "v=0\r\n".toList ++ "m=video 9 UDP 96\r\na=fmtp:96 x=1;packetization-mode=1\r\n".toList ∧
    ¬ "a=group:LS 0 1".toList <:+: post_body
      "v=0\r\na=group:LS 0 1\r\nm=video 9 UDP 96\r\na=fmtp:96 x=1;packetization-mode=1\r\n".toList
      "sprop-parameter-sets=Z0LAHw==,aM4G4g==;".toList :=
  have h := Connect_splice_group_line
    "v=0\r\na=group:LS 0 1\r\nm=video 9 UDP 96\r\na=fmtp:96 x=1;packetization-mode=1\r\n".toList
    "sprop-parameter-sets=Z0LAHw==,aM4G4g==;".toList "v=0\r\n".toList
    "m=video 9 UDP 96\r\na=fmtp:96 x=1;packetization-mode=1\r\n".toList
    (by decide) (by decide) (by decide) (by decide)
  ⟨by decide, by decide, by decide, by decide, h.1,
    h.2.2 (by decide) (by decide) (by decide) (by decide)⟩

/-! ## The offer exchange and the teardown -/

theorem Connect_location_fields (env : Env) (st : WHIPOutput) :
    (Connect_location env st).1.peer_connection = st.peer_connection ∧
    (Connect_location env st).1.audio_track = st.audio_track ∧
    (Connect_location env st).1.video_track = st.video_track ∧
    (Connect_location env st).1.running = st.running ∧
    signalStopCount (Connect_location env st).2 = 0 ∧
    remoteDescriptions (Connect_location env st).2 = [] ∧
    httpRequestCount (Connect_location env st).2 = 0 ∧
    beginCaptureCount (Connect_location env st).2 = 0 ∧
    createdSessions (Connect_location env st).2 = [] ∧
    deletedSessions (Connect_location env st).2 = [] := by
  unfold Connect_location
  split
  · simp [signalStopCount, remoteDescriptions, httpRequestCount, beginCaptureCount,
      createdSessions, deletedSessions]
  · split <;> simp [signalStopCount, remoteDescriptions, httpRequestCount, beginCaptureCount,
      createdSessions, deletedSessions]

theorem Connect_request_counts (env : Env) (st : WHIPOutput) :
    signalStopCount (Connect_request env st) = 0 ∧
    remoteDescriptions (Connect_request env st) = [] ∧
    httpRequestCount (Connect_request env st) = 1 ∧
    beginCaptureCount (Connect_request env st) = 0 ∧
    createdSessions (Connect_request env st) = [] ∧
    deletedSessions (Connect_request env st) = [] := by
  unfold Connect_request
  split <;> simp [signalStopCount, remoteDescriptions, httpRequestCount, beginCaptureCount,
      createdSessions, deletedSessions]

theorem signalStopCount_append (a b : List Event) :
    signalStopCount (a ++ b) = signalStopCount a + signalStopCount b := by
  simp [signalStopCount]

theorem remoteDescriptions_append (a b : List Event) :
    remoteDescriptions (a ++ b) = remoteDescriptions a ++ remoteDescriptions b := by
  simp [remoteDescriptions]

theorem failureReport_append (evs : List Event) (format : String) (args : List LogArg)
    (code : StopCode) :
    failureReport (evs ++ [.do_log .LOG_WARNING format args, .obs_output_signal_stop code]) =
      some (format, code) := by
  simp [failureReport]

theorem Connect_transport_failure (env : Env) (st : WHIPOutput) (h1 : env.post.res ≠ 0) :
    Connect env st = (false, { st with sprop_parameter_sets := [] },
      Connect_request env st ++
      [.do_log .LOG_WARNING "Connect failed: CURL returned result not CURLE_OK" [],
       .obs_output_signal_stop .OBS_OUTPUT_CONNECT_FAILED]) := by
  simp [Connect, h1]

theorem Connect_bad_status (env : Env) (st : WHIPOutput) (h1 : env.post.res = 0)
    (h2 : env.post.response_code ≠ 201) :
    Connect env st = (false, { st with sprop_parameter_sets := [] },
      Connect_request env st ++
      [.do_log .LOG_WARNING "Connect failed: HTTP endpoint returned response code %ld"
         [.num env.post.response_code],
       .obs_output_signal_stop .OBS_OUTPUT_INVALID_STREAM]) := by
  simp [Connect, h1, h2]

theorem Connect_empty_body (env : Env) (st : WHIPOutput) (h1 : env.post.res = 0)
    (h2 : env.post.response_code = 201) (h3 : env.post.read_buffer = []) :
    Connect env st = (false, { st with sprop_parameter_sets := [] },
      Connect_request env st ++
      [.do_log .LOG_WARNING "Connect failed: No data returned from HTTP endpoint request" [],
       .obs_output_signal_stop .OBS_OUTPUT_CONNECT_FAILED]) := by
  simp [Connect, h1, h2, h3]

theorem Connect_success (env : Env) (st : WHIPOutput) (h1 : env.post.res = 0)
    (h2 : env.post.response_code = 201) (h3 : env.post.read_buffer ≠ []) :
    Connect env st = (true, (Connect_location env { st with sprop_parameter_sets := [] }).1,
      Connect_request env st ++ (Connect_location env { st with sprop_parameter_sets := [] }).2 ++
      [.rtcSetRemoteDescription st.peer_connection (c_str env.post.read_buffer)]) := by
  have hpc := (Connect_location_fields env { st with sprop_parameter_sets := [] }).1
  simp only [] at hpc
  simp [Connect, h1, h2, h3, hpc]

/-- A failed offer exchange, whatever its cause: the value of `Connect`. -/
theorem Connect_failure (env : Env) (st : WHIPOutput)
    (h : env.post.res ≠ 0 ∨ env.post.response_code ≠ 201 ∨ env.post.read_buffer = []) :
    ∃ format args code, Connect env st = (false, { st with sprop_parameter_sets := [] },
      Connect_request env st ++
      [.do_log .LOG_WARNING format args, .obs_output_signal_stop code]) := by
  by_cases h1 : env.post.res = 0
  · by_cases h2 : env.post.response_code = 201
    · have h3 : env.post.read_buffer = [] := by
        rcases h with h | h | h
        · exact absurd h1 h
        · exact absurd h2 h
        · exact h
      exact ⟨_, _, _, Connect_empty_body env st h1 h2 h3⟩
    · exact ⟨_, _, _, Connect_bad_status env st h1 h2⟩
  · exact ⟨_, _, _, Connect_transport_failure env st h1⟩

/-- The report that ends a failed offer exchange, for each of the three causes. -/
theorem Connect_failureReport (env : Env) (st : WHIPOutput) :
    (env.post.res ≠ 0 →
      failureReport (Connect env st).2.2 =
        some ("Connect failed: CURL returned result not CURLE_OK",
          .OBS_OUTPUT_CONNECT_FAILED)) ∧
    (env.post.res = 0 → env.post.response_code ≠ 201 →
      failureReport (Connect env st).2.2 =
        some ("Connect failed: HTTP endpoint returned response code %ld",
          .OBS_OUTPUT_INVALID_STREAM)) ∧
    (env.post.res = 0 → env.post.response_code = 201 → env.post.read_buffer = [] →
      failureReport (Connect env st).2.2 =
        some ("Connect failed: No data returned from HTTP endpoint request",
          .OBS_OUTPUT_CONNECT_FAILED)) := by
  refine ⟨fun h1 => ?_, fun h1 h2 => ?_, fun h1 h2 h3 => ?_⟩
  · rw [Connect_transport_failure env st h1]
    exact failureReport_append _ _ _ _
  · rw [Connect_bad_status env st h1 h2]
    exact failureReport_append _ _ _ _
  · rw [Connect_empty_body env st h1 h2 h3]
    exact failureReport_append _ _ _ _

/-- **C5, as stated, fails.** When the POST is answered with status 201 and the four
characters NUL, `v`, `=`, `0`, the body is not empty and `Connect` returns true, but the
description it passes to `rtcSetRemoteDescription` is the empty string and not the body: the
call takes `read_buffer.c_str()`. And the failure causes are not all distinct to the host: a
transport failure (here `CURLcode` 7) and an empty body end with the same stop code,
`OBS_OUTPUT_CONNECT_FAILED`. -/
theorem Connect_outcome_counterexample :
    ([NUL, 'v', '=', '0'] : List Char) ≠ [] ∧
    (Connect { sampleEnv with post := { sampleEnv.post with read_buffer := [NUL, 'v', '=', '0'] } }
      WHIPOutput.fresh).1 = true ∧
    remoteDescriptions (Connect
      { sampleEnv with post := { sampleEnv.post with read_buffer := [NUL, 'v', '=', '0'] } }
      WHIPOutput.fresh).2.2 = [[]] ∧
    remoteDescriptions (Connect
      { sampleEnv with post := { sampleEnv.post with read_buffer := [NUL, 'v', '=', '0'] } }
      WHIPOutput.fresh).2.2 ≠ [[NUL, 'v', '=', '0']] ∧
    (failureReport (Connect { sampleEnv with post := { sampleEnv.post with res := 7 } }
      WHIPOutput.fresh).2.2).map Prod.snd = some .OBS_OUTPUT_CONNECT_FAILED ∧
    (failureReport (Connect { sampleEnv with post := { sampleEnv.post with read_buffer := [] } }
      WHIPOutput.fresh).2.2).map Prod.snd = some .OBS_OUTPUT_CONNECT_FAILED := by
  decide

/-- **C5, amended.** The outcome of the offer exchange as a function of the transport result,
the status and the body. `Connect` returns true exactly when the transport call completed, the
status is 201 and the body is not empty; it then passes to `rtcSetRemoteDescription` the body
up to its first NUL character, which is the whole body when the body has no NUL, and signals
no stop. A transport failure, a status other than 201 and an empty body each make it return
false without any remote description, whatever the other components of the response are, and
each ends with its own warning followed by one stop signal. Of two exchanges (the second is
`env2`, `st2`) that fail for different causes the warnings differ; the stop codes differ when
one of the causes is the bad status, and are the same, `OBS_OUTPUT_CONNECT_FAILED`, for a
transport failure and an empty body. -/
theorem Connect_outcome (env env2 : Env) (st st2 : WHIPOutput) :
    ((Connect env st).1 = true ↔
      env.post.res = 0 ∧ env.post.response_code = 201 ∧ env.post.read_buffer ≠ []) ∧
    ((Connect env st).1 = true →
      remoteDescriptions (Connect env st).2.2 = [c_str env.post.read_buffer] ∧
      (Connect env st).2.2.getLast? =
        some (.rtcSetRemoteDescription st.peer_connection (c_str env.post.read_buffer)) ∧
      (NUL ∉ env.post.read_buffer →
        remoteDescriptions (Connect env st).2.2 = [env.post.read_buffer]) ∧
      signalStopCount (Connect env st).2.2 = 0 ∧
      failureReport (Connect env st).2.2 = none) ∧
    ((Connect env st).1 = false →
      remoteDescriptions (Connect env st).2.2 = [] ∧ signalStopCount (Connect env st).2.2 = 1) ∧
    (env.post.res ≠ 0 →
      (Connect env st).1 = false ∧
      failureReport (Connect env st).2.2 =
        some ("Connect failed: CURL returned result not CURLE_OK",
          .OBS_OUTPUT_CONNECT_FAILED)) ∧
    (env.post.res = 0 → env.post.response_code ≠ 201 →
      (Connect env st).1 = false ∧
      failureReport (Connect env st).2.2 =
        some ("Connect failed: HTTP endpoint returned response code %ld",
          .OBS_OUTPUT_INVALID_STREAM)) ∧
    (env.post.res = 0 → env.post.response_code = 201 → env.post.read_buffer = [] →
      (Connect env st).1 = false ∧
      failureReport (Connect env st).2.2 =
        some ("Connect failed: No data returned from HTTP endpoint request",
          .OBS_OUTPUT_CONNECT_FAILED)) ∧
    (env.post.res ≠ 0 → env2.post.res = 0 → env2.post.response_code ≠ 201 →
      (failureReport (Connect env st).2.2).map Prod.fst ≠
        (failureReport (Connect env2 st2).2.2).map Prod.fst ∧
      (failureReport (Connect env st).2.2).map Prod.snd ≠
        (failureReport (Connect env2 st2).2.2).map Prod.snd) ∧
    (env.post.res ≠ 0 →
      env2.post.res = 0 → env2.post.response_code = 201 → env2.post.read_buffer = [] →
      (failureReport (Connect env st).2.2).map Prod.fst ≠
        (failureReport (Connect env2 st2).2.2).map Prod.fst ∧
      (failureReport (Connect env st).2.2).map Prod.snd =
        (failureReport (Connect env2 st2).2.2).map Prod.snd) ∧
    (env.post.res = 0 → env.post.response_code ≠ 201 →
      env2.post.res = 0 → env2.post.response_code = 201 → env2.post.read_buffer = [] →
      (failureReport (Connect env st).2.2).map Prod.fst ≠
        (failureReport (Connect env2 st2).2.2).map Prod.fst ∧
      (failureReport (Connect env st).2.2).map Prod.snd ≠
        (failureReport (Connect env2 st2).2.2).map Prod.snd) := by
  have hreq := Connect_request_counts env st
  have hrep := Connect_failureReport env st
  have hrep2 := Connect_failureReport env2 st2
  have hdist : (env.post.res ≠ 0 → env2.post.res = 0 → env2.post.response_code ≠ 201 →
      (failureReport (Connect env st).2.2).map Prod.fst ≠
        (failureReport (Connect env2 st2).2.2).map Prod.fst ∧
      (failureReport (Connect env st).2.2).map Prod.snd ≠
        (failureReport (Connect env2 st2).2.2).map Prod.snd) ∧
    (env.post.res ≠ 0 →
      env2.post.res = 0 → env2.post.response_code = 201 → env2.post.read_buffer = [] →
      (failureReport (Connect env st).2.2).map Prod.fst ≠
        (failureReport (Connect env2 st2).2.2).map Prod.fst ∧
      (failureReport (Connect env st).2.2).map Prod.snd =
        (failureReport (Connect env2 st2).2.2).map Prod.snd) ∧
    (env.post.res = 0 → env.post.response_code ≠ 201 →
      env2.post.res = 0 → env2.post.response_code = 201 → env2.post.read_buffer = [] →
      (failureReport (Connect env st).2.2).map Prod.fst ≠
        (failureReport (Connect env2 st2).2.2).map Prod.fst ∧
      (failureReport (Connect env st).2.2).map Prod.snd ≠
        (failureReport (Connect env2 st2).2.2).map Prod.snd) := by
    refine ⟨fun a b c => ?_, fun a b c d => ?_, fun a a2 b c d => ?_⟩
    · rw [hrep.1 a, hrep2.2.1 b c]; decide
    · rw [hrep.1 a, hrep2.2.2 b c d]; decide
    · rw [hrep.2.1 a a2, hrep2.2.2 b c d]; decide
  obtain ⟨hd1, hd2, hd3⟩ := hdist
  by_cases h1 : env.post.res = 0
  · by_cases h2 : env.post.response_code = 201
    · by_cases h3 : env.post.read_buffer = []
      · refine ⟨?_, ?_, ?_, fun h => absurd h1 h, fun _ h => absurd h2 h,
          fun _ _ _ => ⟨?_, hrep.2.2 h1 h2 h3⟩, hd1, hd2, hd3⟩
        · rw [Connect_empty_body env st h1 h2 h3]; simp [h3]
        · rw [Connect_empty_body env st h1 h2 h3]; simp
        · rw [Connect_empty_body env st h1 h2 h3]
          refine fun _ => ⟨?_, ?_⟩
          · show remoteDescriptions (_ ++ _) = []
            rw [remoteDescriptions_append, hreq.2.1]; rfl
          · show signalStopCount (_ ++ _) = 1
            rw [signalStopCount_append, hreq.1]; rfl
        · rw [Connect_empty_body env st h1 h2 h3]
      · have hloc := Connect_location_fields env { st with sprop_parameter_sets := [] }
        have hrd : remoteDescriptions (Connect env st).2.2 = [c_str env.post.read_buffer] := by
          rw [Connect_success env st h1 h2 h3]
          show remoteDescriptions (_ ++ _ ++ _) = _
          rw [remoteDescriptions_append, remoteDescriptions_append, hreq.2.1, hloc.2.2.2.2.2.1]
          rfl
        refine ⟨?_, fun _ => ⟨hrd, ?_, ?_, ?_, ?_⟩, ?_, fun h => absurd h1 h,
          fun _ h => absurd h2 h, fun _ _ h => absurd h h3, hd1, hd2, hd3⟩
        · rw [Connect_success env st h1 h2 h3]; simp [h1, h2, h3]
        · rw [Connect_success env st h1 h2 h3]; simp
        · intro hnul
          rw [hrd, c_str_of_not_mem _ hnul]
        · rw [Connect_success env st h1 h2 h3]
          show signalStopCount (_ ++ _ ++ _) = 0
          rw [signalStopCount_append, signalStopCount_append, hreq.1, hloc.2.2.2.2.1]; rfl
        · rw [Connect_success env st h1 h2 h3]; simp [failureReport]
        · rw [Connect_success env st h1 h2 h3]; simp
    · refine ⟨?_, ?_, ?_, fun h => absurd h1 h, fun _ _ => ⟨?_, hrep.2.1 h1 h2⟩,
        fun _ h => absurd h h2, hd1, hd2, hd3⟩
      · rw [Connect_bad_status env st h1 h2]; simp [h2]
      · rw [Connect_bad_status env st h1 h2]; simp
      · rw [Connect_bad_status env st h1 h2]
        refine fun _ => ⟨?_, ?_⟩
        · show remoteDescriptions (_ ++ _) = []
          rw [remoteDescriptions_append, hreq.2.1]; rfl
        · show signalStopCount (_ ++ _) = 1
          rw [signalStopCount_append, hreq.1]; rfl
      · rw [Connect_bad_status env st h1 h2]
  · refine ⟨?_, ?_, ?_, fun _ => ⟨?_, hrep.1 h1⟩, fun h => absurd h h1,
      fun h => absurd h h1, hd1, hd2, hd3⟩
    · rw [Connect_transport_failure env st h1]; simp [h1]
    · rw [Connect_transport_failure env st h1]; simp
    · rw [Connect_transport_failure env st h1]
      refine fun _ => ⟨?_, ?_⟩
      · show remoteDescriptions (_ ++ _) = []
        rw [remoteDescriptions_append, hreq.2.1]; rfl
      · show signalStopCount (_ ++ _) = 1
        rw [signalStopCount_append, hreq.1]; rfl
    · rw [Connect_transport_failure env st h1]

/-- Witness of the amended C5: the exchange of `sampleEnv`, answered with status 201 and the
body `v=0`, succeeds and passes the whole body on; against an exchange that fails in the
transport, one answered with status 500 ends with another warning and another stop code. -/
theorem Connect_outcome_witness :
    (Connect sampleEnv WHIPOutput.fresh).1 = true ∧
    remoteDescriptions (Connect sampleEnv WHIPOutput.fresh).2.2 = ["v=0".toList] ∧
    (failureReport (Connect { sampleEnv with post := { sampleEnv.post with res := 7 } }
        WHIPOutput.fresh).2.2).map Prod.snd ≠
      (failureReport (Connect
        { sampleEnv with post := { sampleEnv.post with response_code := 500 } }
        WHIPOutput.fresh).2.2).map Prod.snd :=
  ⟨(Connect_outcome sampleEnv sampleEnv WHIPOutput.fresh WHIPOutput.fresh).1.mpr (by decide),
    (Connect_outcome sampleEnv sampleEnv WHIPOutput.fresh WHIPOutput.fresh).2.1
      (by decide) |>.2.2.1 (by decide),
    ((Connect_outcome { sampleEnv with post := { sampleEnv.post with res := 7 } }
      { sampleEnv with post := { sampleEnv.post with response_code := 500 } }
      WHIPOutput.fresh WHIPOutput.fresh).2.2.2.2.2.2.1
        (by decide) (by decide) (by decide)).2⟩

/-- **C6.** The teardown, for every object and every outcome of the DELETE request. With an
empty `resource_url` no HTTP request is made and the object is unchanged. Otherwise one DELETE
is made; when it completes with status 200 `resource_url` becomes empty, and for every other
outcome (transport failure, or any other status) `resource_url` is left as it was. In all
cases `SendDelete` returns (the function is total), signals nothing to the host, and changes
no member other than `resource_url`. -/
theorem SendDelete_outcome (del : HttpResult) (st : WHIPOutput) :
    (st.resource_url = [] →
      (SendDelete del st).1 = st ∧ httpRequestCount (SendDelete del st).2 = 0) ∧
    (st.resource_url ≠ [] →
      httpRequestCount (SendDelete del st).2 = 1 ∧
      (SendDelete del st).2.head? =
        some (.http_delete st.resource_url (bearer_header st.bearer_token))) ∧
    (st.resource_url ≠ [] → del.res = 0 → del.response_code = 200 →
      (SendDelete del st).1.resource_url = []) ∧
    (st.resource_url ≠ [] → (del.res ≠ 0 ∨ del.response_code ≠ 200) →
      (SendDelete del st).1.resource_url = st.resource_url) ∧
    (SendDelete del st).1 = { st with resource_url := (SendDelete del st).1.resource_url } ∧
    signalStopCount (SendDelete del st).2 = 0 := by
  unfold SendDelete
  by_cases h0 : st.resource_url = []
  · simp [h0, httpRequestCount, signalStopCount]
    cases st
    simp only [] at h0
    simp [h0]
  · by_cases h1 : del.res = 0
    · by_cases h2 : del.response_code = 200
      · simp [h0, h1, h2, httpRequestCount, signalStopCount]
      · simp [h0, h1, h2, httpRequestCount, signalStopCount]
    · simp [h0, h1, httpRequestCount, signalStopCount]

/-! ## Stop signals -/

theorem SendDelete_fields (del : HttpResult) (st : WHIPOutput) :
    (SendDelete del st).1.running = st.running ∧
    (SendDelete del st).1.peer_connection = st.peer_connection ∧
    (SendDelete del st).1.audio_track = st.audio_track ∧
    (SendDelete del st).1.video_track = st.video_track ∧
    signalStopCount (SendDelete del st).2 = 0 := by
  unfold SendDelete
  by_cases h0 : st.resource_url = []
  · simp [h0, signalStopCount]
  · by_cases h1 : del.res = 0
    · by_cases h2 : del.response_code = 200 <;> simp [h0, h1, h2, signalStopCount]
    · simp [h0, h1, signalStopCount]

/-- The stop thread signals success once when `running` and `signal` are both set, and
nothing otherwise; `running` is cleared only when it signals. -/
theorem StopThread_signal (signal : Bool) (del : HttpResult) (st : WHIPOutput) :
    signalStopCount (StopThread signal del st).2 = (if st.running ∧ signal then 1 else 0) ∧
    (StopThread signal del st).1.running = (st.running && !signal) := by
  have h1 : (StopThread_release st).1.running = st.running ∧
      signalStopCount (StopThread_release st).2 = 0 := by
    unfold StopThread_release
    split <;> simp [signalStopCount]
  have h2 := SendDelete_fields del (StopThread_release st).1
  have h3 : ∀ s : WHIPOutput,
      signalStopCount (StopThread_report signal s).2 = (if s.running ∧ signal then 1 else 0) ∧
      (StopThread_report signal s).1.running = (s.running && !signal) := by
    intro s
    unfold StopThread_report
    cases hr : s.running <;> cases signal <;> simp [hr, signalStopCount]
  have h4 := h3 (SendDelete del (StopThread_release st).1).1
  simp only [StopThread, StopThread_reset, signalStopCount_append]
  rw [h1.2, h2.2.2.2.2, h4.1, h4.2, h2.1, h1.1]
  simp

/-- What one happening signals: a stop requested by the host signals once if `running` is set
and clears it; a null frame or a Disconnected/Failed notification signals exactly once and
leaves `running` as it is. -/
theorem happen_signal (h : Happening) (st : WHIPOutput) :
    signalStopCount (happen h st).2 =
      (if h.isHostStop then (if st.running then 1 else 0) else 1) ∧
    (happen h st).1.running = (st.running && !h.isHostStop) := by
  cases h with
  | host_stop del =>
    have := StopThread_signal true del st
    simp only [happen, Stop, Happening.isHostStop]
    rw [this.1, this.2]
    simp
  | null_frame del =>
    have := StopThread_signal false del st
    simp only [happen, Data_null, Stop, Happening.isHostStop, signalStopCount_append]
    rw [this.1, this.2]
    simp [signalStopCount]
  | disconnected del =>
    have := StopThread_signal false del st
    simp only [happen, on_disconnected, Stop, Happening.isHostStop, signalStopCount_append]
    rw [this.1, this.2]
    simp [signalStopCount]
  | failed del =>
    have := StopThread_signal false del st
    simp only [happen, on_failed, Stop, Happening.isHostStop, signalStopCount_append]
    rw [this.1, this.2]
    simp [signalStopCount]

/-! ## Identifier generation -/

theorem valid_char_table : ∀ i, i < 62 →
    (signaling_media_id_valid_char[i]?).any
      (fun c => decide (c ∈ "0123456789ABCDEFGHIJKLMNOPQRSTUVWXYZabcdefghijklmnopqrstuvwxyz".toList))
      = true := by
  decide

/-- The table read of `Setup` is always inside the 62 characters of the literal. -/
theorem valid_char_at_ok (r : Nat) : ∃ c, valid_char_at r = .ok c ∧
    c ∈ "0123456789ABCDEFGHIJKLMNOPQRSTUVWXYZabcdefghijklmnopqrstuvwxyz".toList := by
  have hlen : signaling_media_id_valid_char.length - 1 = 62 := by decide
  have h := valid_char_table (r % 62) (Nat.mod_lt _ (by decide))
  unfold valid_char_at
  rw [hlen]
  rcases hc : signaling_media_id_valid_char[r % 62]? with _ | c
  · rw [hc] at h; simp at h
  · rw [hc] at h
    exact ⟨c, rfl, by simpa using h⟩

theorem generate_ids_ok (rand : Nat → Nat) : ∀ (iters calls : Nat) (ms cn : List Char),
    ∃ ms1 cn1, generate_ids rand iters calls ms cn = .ok (ms ++ ms1, cn ++ cn1) ∧
      ms1.length = iters ∧ cn1.length = iters ∧
      (∀ c ∈ ms1, c ∈ "0123456789ABCDEFGHIJKLMNOPQRSTUVWXYZabcdefghijklmnopqrstuvwxyz".toList) ∧
      (∀ c ∈ cn1, c ∈ "0123456789ABCDEFGHIJKLMNOPQRSTUVWXYZabcdefghijklmnopqrstuvwxyz".toList) := by
  intro iters
  induction iters with
  | zero =>
    intro calls ms cn
    exact ⟨[], [], by simp [generate_ids], rfl, rfl, by simp, by simp⟩
  | succ iters ih =>
    intro calls ms cn
    obtain ⟨c1, h1, hc1⟩ := valid_char_at_ok (rand calls)
    obtain ⟨c2, h2, hc2⟩ := valid_char_at_ok (rand (calls + 1))
    obtain ⟨ms1, cn1, h, hl1, hl2, hm, hn⟩ := ih (calls + 2) (ms ++ [c1]) (cn ++ [c2])
    refine ⟨c1 :: ms1, c2 :: cn1, ?_, by simp [hl1], by simp [hl2], ?_, ?_⟩
    · simp only [generate_ids, h1, h2, h]
      simp
    · intro c hc
      rcases List.mem_cons.mp hc with rfl | hc
      · exact hc1
      · exact hm c hc
    · intro c hc
      rcases List.mem_cons.mp hc with rfl | hc
      · exact hc2
      · exact hn c hc

theorem AllLogs.counts {evs : List Event} (h : AllLogs evs) :
    signalStopCount evs = 0 ∧ beginCaptureCount evs = 0 ∧ createdSessions evs = [] ∧
    deletedSessions evs = [] ∧ httpRequestCount evs = 0 := by
  induction evs with
  | nil => simp [signalStopCount, beginCaptureCount, createdSessions, deletedSessions,
      httpRequestCount]
  | cons e rest ih =>
    obtain ⟨l, f, a, rfl⟩ := h e (List.mem_cons_self _ _)
    have ih' := ih (fun e he => h e (List.mem_cons_of_mem _ he))
    simp only [signalStopCount, beginCaptureCount, createdSessions, deletedSessions,
      httpRequestCount] at ih' ⊢
    simp [List.filter_cons, List.filterMap_cons, ih']

theorem AllLogs.append {a b : List Event} (ha : AllLogs a) (hb : AllLogs b) : AllLogs (a ++ b) := by
  intro e he
  rcases List.mem_append.mp he with h | h
  · exact ha e h
  · exact hb e h

theorem Init_nalu_logs (acc acc1 : List Char × List Event) (nalu : List Nat)
    (h : Init_nalu acc nalu = .ok acc1) (hacc : AllLogs acc.2) : AllLogs acc1.2 := by
  unfold Init_nalu at h
  rcases h0 : naluType nalu with _ | type <;> rw [h0] at h <;> simp only [] at h
  · cases h
  · by_cases hs : type = OBS_NAL_SPS
    · rw [if_pos hs] at h
      cases h
      exact hacc.append (by
        intro e he; simp at he; rcases he with rfl | rfl <;> exact ⟨_, _, _, rfl⟩)
    · rw [if_neg hs] at h
      by_cases hp : type = OBS_NAL_PPS
      · rw [if_pos hp] at h
        cases h
        exact hacc.append (by
          intro e he; simp at he; rcases he with rfl | rfl <;> exact ⟨_, _, _, rfl⟩)
      · rw [if_neg hp] at h
        cases h
        exact hacc

theorem Init_nalus_logs : ∀ (nalus : List (List Nat)) (acc acc1 : List Char × List Event),
    Init_nalus nalus acc = .ok acc1 → AllLogs acc.2 → AllLogs acc1.2 := by
  intro nalus
  induction nalus with
  | nil =>
    intro acc acc1 h hacc
    simp only [Init_nalus] at h
    cases h
    exact hacc
  | cons nalu rest ih =>
    intro acc acc1 h hacc
    simp only [Init_nalus] at h
    rcases h1 : Init_nalu acc nalu with e | acc2
    · rw [h1] at h; cases h
    · rw [h1] at h
      exact ih acc2 acc1 h (Init_nalu_logs acc acc2 nalu h1 hacc)

theorem Init_extra_data_logs (header : List Nat) (sprop : List Char)
    (r : List Char × List Event) (h : Init_extra_data header sprop = .ok r) : AllLogs r.2 := by
  unfold Init_extra_data at h
  rcases h1 : parse_h264_nals header with e | nalus
  · rw [h1] at h; cases h
  · rw [h1] at h
    simp only [] at h
    rcases h2 : Init_nalus nalus (sprop, []) with e | acc
    · rw [h2] at h; cases h
    · rw [h2] at h
      have hl := Init_nalus_logs nalus (sprop, []) acc h2 (by intro e he; simp at he)
      obtain ⟨s1, evs⟩ := acc
      simp only [] at h
      split at h <;> cases h <;>
        exact hl.append (by intro e he; simp at he; subst he; exact ⟨_, _, _, rfl⟩)


/-- What `Init` returns and does: it leaves the session members alone, logs only when it
succeeds, and signals exactly one stop when it fails, which happens exactly when there is no
service or no endpoint URL. -/
theorem Init_result (env : Env) (st st1 : WHIPOutput) (b : Bool) (evs1 : List Event)
    (h : Init env st = .ok (b, st1, evs1)) :
    st1.running = st.running ∧ st1.peer_connection = st.peer_connection ∧
    st1.audio_track = st.audio_track ∧ st1.video_track = st.video_track ∧
    st1.resource_url = st.resource_url ∧
    (b = true → AllLogs evs1 ∧ ∃ s, env.service = some s ∧ s.server_url ≠ []) ∧
    (b = false → (∃ code, evs1 = [.obs_output_signal_stop code]) ∧
      (env.service = none ∨ ∃ s, env.service = some s ∧ s.server_url = [])) := by
  unfold Init at h
  rcases hs : env.service with _ | service
  · rw [hs] at h
    simp only [] at h
    cases h
    simp
  · rw [hs] at h
    simp only [] at h
    by_cases hurl : service.server_url = []
    · rw [if_pos hurl] at h
      cases h
      simp [hurl]
    · rw [if_neg hurl] at h
      rcases hv : env.video_encoder with _ | extra
      · rw [hv] at h
        simp only [] at h
        cases h
        exact ⟨rfl, rfl, rfl, rfl, rfl,
          fun _ => ⟨by intro e he; simp at he, service, rfl, hurl⟩, by simp⟩
      · rw [hv] at h
        simp only [] at h
        rcases extra with _ | header
        · simp only [] at h
          cases h
          exact ⟨rfl, rfl, rfl, rfl, rfl,
            fun _ => ⟨by intro e he; simp at he; subst he; exact ⟨_, _, _, rfl⟩,
              service, rfl, hurl⟩, by simp⟩
        · simp only [] at h
          rcases hx : Init_extra_data header st.sprop_parameter_sets with e | r
          · rw [hx] at h; cases h
          · rw [hx] at h
            obtain ⟨sprop, evs2⟩ := r
            simp only [] at h
            cases h
            have hl := Init_extra_data_logs header _ _ hx
            exact ⟨rfl, rfl, rfl, rfl, rfl,
              fun _ => ⟨AllLogs.append
                (by intro e he; simp at he; subst he; exact ⟨_, _, _, rfl⟩) hl,
                service, rfl, hurl⟩, by simp⟩

/-- The method `Setup` always succeeds in the model: it creates one transport session, whose
handle it stores, and signals nothing. -/
theorem Setup_result (env : Env) (st : WHIPOutput) :
    ∃ st2 evs2, Setup env st = .ok (true, st2, evs2) ∧
      st2.running = st.running ∧ st2.resource_url = st.resource_url ∧
      st2.peer_connection = env.new_peer_connection ∧
      signalStopCount evs2 = 0 ∧ beginCaptureCount evs2 = 0 ∧
      createdSessions evs2 = [env.new_peer_connection] ∧ deletedSessions evs2 = [] ∧
      httpRequestCount evs2 = 0 := by
  obtain ⟨ms, cn, h, _⟩ := generate_ids_ok env.rand signaling_media_id_length 0 [] []
  have h' : Setup_ids env.rand = .ok (ms, cn) := by simpa [Setup_ids] using h
  simp only [Setup, h']
  exact ⟨_, _, rfl, rfl, rfl, rfl, rfl, rfl, rfl, rfl, rfl⟩

theorem beginCaptureCount_append (a b : List Event) :
    beginCaptureCount (a ++ b) = beginCaptureCount a + beginCaptureCount b := by
  simp [beginCaptureCount]

theorem httpRequestCount_append (a b : List Event) :
    httpRequestCount (a ++ b) = httpRequestCount a + httpRequestCount b := by
  simp [httpRequestCount]

/-- A start sequence that calls `obs_output_begin_data_capture` has signalled no stop and
leaves `running` set. -/
theorem StartThread_success (env : Env) (st0 st1 : WHIPOutput) (evs : List Event)
    (h : StartThread env st0 = .ok (st1, evs))
    (hbegin : Event.obs_output_begin_data_capture ∈ evs) :
    st1.running = true ∧ signalStopCount evs = 0 := by
  have hpos : 0 < beginCaptureCount evs := by
    unfold beginCaptureCount
    exact List.length_pos.mpr (List.ne_nil_of_mem (List.mem_filter.mpr ⟨hbegin, rfl⟩))
  rcases hI : Init env st0 with e | ⟨b, sti, evs1⟩
  · simp [StartThread, hI] at h
  · have hr := Init_result env st0 sti b evs1 hI
    cases b
    · obtain ⟨⟨code, hcode⟩, _⟩ := hr.2.2.2.2.2.2 rfl
      simp only [StartThread, hI, Except.ok.injEq, Prod.mk.injEq] at h
      rw [← h.2, hcode] at hpos
      simp [beginCaptureCount] at hpos
    · obtain ⟨hlogs, _⟩ := hr.2.2.2.2.2.1 rfl
      have hl := hlogs.counts
      obtain ⟨st2, evs2, hS, _, _, _, hsig2, hbeg2, _, _, _⟩ := Setup_result env sti
      have hreq := Connect_request_counts env st2
      by_cases hok : env.post.res = 0 ∧ env.post.response_code = 201 ∧ env.post.read_buffer ≠ []
      · have hC := Connect_success env st2 hok.1 hok.2.1 hok.2.2
        have hloc := Connect_location_fields env { st2 with sprop_parameter_sets := [] }
        simp only [StartThread, hI, hS, hC, Except.ok.injEq, Prod.mk.injEq] at h
        refine ⟨by rw [← h.1], ?_⟩
        rw [← h.2]
        simp only [signalStopCount_append, hl.1, hsig2, hreq.1, hloc.2.2.2.2.1]
        rfl
      · have hfail : env.post.res ≠ 0 ∨ env.post.response_code ≠ 201 ∨
            env.post.read_buffer = [] := by
          by_cases h1 : env.post.res = 0
          · by_cases h2 : env.post.response_code = 201
            · by_cases h3 : env.post.read_buffer = []
              · exact Or.inr (Or.inr h3)
              · exact absurd ⟨h1, h2, h3⟩ hok
            · exact Or.inr (Or.inl h2)
          · exact Or.inl h1
        obtain ⟨format, args, code, hC⟩ := Connect_failure env st2 hfail
        simp only [StartThread, hI, hS, hC, Except.ok.injEq, Prod.mk.injEq] at h
        rw [← h.2] at hpos
        simp only [beginCaptureCount_append, hl.2.1, hbeg2, hreq.2.2.2.1] at hpos
        simp [beginCaptureCount] at hpos

/-- **C7, as stated, fails.** After a start sequence that succeeded, a Disconnected
notification followed by a stop requested by the host makes two `obs_output_signal_stop`
calls: the callback signals `OBS_OUTPUT_DISCONNECTED`, its `Stop(false)` leaves `running` set,
and the stop thread of the host request then signals `OBS_OUTPUT_SUCCESS`. -/
theorem signal_stop_at_most_once_counterexample :
    (StartThread sampleEnv WHIPOutput.fresh).map (fun r => (r.1.running, signalStopCount r.2,
      signalStopCount
        (happenAll [.disconnected sampleDelete, .host_stop sampleDelete] r.1).2)) =
      .ok (true, 0, 2) := by
  decide

/-- **C7, amended.** For every session and every sequence of stops requested by the host,
null frames and Disconnected/Failed notifications, each run to completion: the number of
`obs_output_signal_stop` calls is the number of null frames and notifications in the sequence,
plus one if `running` was set and the sequence contains a stop requested by the host. Stops
requested by the host alone therefore signal at most once however often they are repeated,
while every null frame and every notification signals once more. A start sequence that
succeeded (it called `obs_output_begin_data_capture`) has signalled nothing itself and leaves
`running` set. -/
theorem signal_stop_count (hs : List Happening) (st : WHIPOutput) :
    signalStopCount (happenAll hs st).2 =
      internalCount hs + (if st.running ∧ hs.any Happening.isHostStop then 1 else 0) ∧
    (internalCount hs = 0 → signalStopCount (happenAll hs st).2 ≤ 1) ∧
    (∀ env st0 evs, StartThread env st0 = .ok (st, evs) →
      Event.obs_output_begin_data_capture ∈ evs →
      signalStopCount evs = 0 ∧
      signalStopCount (happenAll hs st).2 =
        internalCount hs + (if hs.any Happening.isHostStop then 1 else 0)) := by
  have main : ∀ (hs : List Happening) (st : WHIPOutput),
      signalStopCount (happenAll hs st).2 =
        internalCount hs + (if st.running ∧ hs.any Happening.isHostStop then 1 else 0) := by
    intro hs
    induction hs with
    | nil => intro st; simp [happenAll, signalStopCount, internalCount]
    | cons h rest ih =>
      intro st
      have hh := happen_signal h st
      simp only [happenAll, signalStopCount_append]
      rw [ih, hh.1, hh.2]
      cases hhost : h.isHostStop <;> cases hr : st.running <;>
        simp [internalCount, hhost, List.filter_cons] <;> omega
  refine ⟨main hs st, ?_, ?_⟩
  · intro h0
    rw [main hs st, h0]
    split <;> simp
  · intro env st0 evs hstart hbegin
    obtain ⟨hrun, hsig⟩ := StartThread_success env st0 st evs hstart hbegin
    refine ⟨hsig, ?_⟩
    rw [main hs st, hrun]
    simp

/-! ## Base 64 -/

set_option maxRecDepth 100000 in
theorem b64_masks : ∀ a, a < 256 →
    (a &&& 0xfc) >>> 2 = a / 4 ∧ (a &&& 0x03) <<< 4 = (a % 4) * 16 ∧
    (a &&& 0xf0) >>> 4 = a / 16 ∧ (a &&& 0x0f) <<< 2 = (a % 16) * 4 ∧
    (a &&& 0xc0) >>> 6 = a / 64 ∧ a &&& 0x3f = a % 64 := by
  decide

set_option maxRecDepth 100000 in
theorem b64_char_eq : ∀ v, v < 64 → b64_char v = rfc4648Alphabet v := by
  decide

/-- The four values computed from three bytes are the four 6-bit digits of the 24-bit number
the bytes form. -/
theorem char_array_4_eq (a b c : Nat) (ha : a < 256) (hb : b < 256) (hc : c < 256) :
    char_array_4 a b c =
      [ (a * 65536 + b * 256 + c) / 262144 % 64, (a * 65536 + b * 256 + c) / 4096 % 64,
        (a * 65536 + b * 256 + c) / 64 % 64, (a * 65536 + b * 256 + c) % 64 ] := by
  obtain ⟨a1, a2, -, -, -, -⟩ := b64_masks a ha
  obtain ⟨-, -, b3, b4, -, -⟩ := b64_masks b hb
  obtain ⟨-, -, -, -, c5, c6⟩ := b64_masks c hc
  unfold char_array_4
  rw [a1, a2, b3, b4, c5, c6]
  congr 1
  · omega
  congr 1
  · omega
  congr 1
  · omega
  congr 1
  omega


theorem sextet_lt (n : Nat) : n % 64 < 64 := Nat.mod_lt _ (by decide)

theorem b64_finish_one (r : List Char) (a a1 a2 : Nat) (ha : a < 256) :
    b64_finish { i := 1, a0 := a, a1 := a1, a2 := a2, ret := r } = r ++ rfc4648Base64 [a] := by
  have h : b64_finish { i := 1, a0 := a, a1 := a1, a2 := a2, ret := r } =
      r ++ ((char_array_4 a 0 0).take 2).map b64_char ++ List.replicate 2 '=' := rfl
  rw [h, char_array_4_eq a 0 0 ha (by decide) (by decide)]
  have e1 : (a * 65536 + 0 * 256 + 0) / 262144 % 64 = a * 16 / 64 % 64 := by omega
  have e2 : (a * 65536 + 0 * 256 + 0) / 4096 % 64 = a * 16 % 64 := by omega
  rw [e1, e2]
  simp only [List.take, List.map, b64_char_eq _ (sextet_lt _), rfc4648Base64]
  simp [List.replicate]

theorem b64_finish_two (r : List Char) (a b a2 : Nat) (ha : a < 256) (hb : b < 256) :
    b64_finish { i := 2, a0 := a, a1 := b, a2 := a2, ret := r } = r ++ rfc4648Base64 [a, b] := by
  have h : b64_finish { i := 2, a0 := a, a1 := b, a2 := a2, ret := r } =
      r ++ ((char_array_4 a b 0).take 3).map b64_char ++ List.replicate 1 '=' := rfl
  rw [h, char_array_4_eq a b 0 ha hb (by decide)]
  have e1 : (a * 65536 + b * 256 + 0) / 262144 % 64 = (a * 256 + b) * 4 / 4096 % 64 := by omega
  have e2 : (a * 65536 + b * 256 + 0) / 4096 % 64 = (a * 256 + b) * 4 / 64 % 64 := by omega
  have e3 : (a * 65536 + b * 256 + 0) / 64 % 64 = (a * 256 + b) * 4 % 64 := by omega
  rw [e1, e2, e3]
  simp only [List.take, List.map, b64_char_eq _ (sextet_lt _), rfc4648Base64]
  simp [List.replicate]

theorem b64_step_zero (r : List Char) (a0 a1 a2 byte : Nat) :
    b64_step { i := 0, a0 := a0, a1 := a1, a2 := a2, ret := r } byte =
      { i := 1, a0 := byte % 256, a1 := a1, a2 := a2, ret := r } := rfl

theorem b64_step_one (r : List Char) (a0 a1 a2 byte : Nat) :
    b64_step { i := 1, a0 := a0, a1 := a1, a2 := a2, ret := r } byte =
      { i := 2, a0 := a0, a1 := byte % 256, a2 := a2, ret := r } := rfl

theorem b64_step_two (r : List Char) (a0 a1 a2 byte : Nat) :
    b64_step { i := 2, a0 := a0, a1 := a1, a2 := a2, ret := r } byte =
      { i := 0, a0 := a0, a1 := a1, a2 := byte % 256,
        ret := r ++ (char_array_4 a0 a1 (byte % 256)).map b64_char } := rfl

/-- The loop and the final block of `b64_encode`, started with `i = 0` and `ret = r`, append
the RFC 4648 encoding of the remaining bytes to `r`. -/
theorem b64_fold (bytes : List Nat) : ∀ (r : List Char) (a0 a1 a2 : Nat),
    (∀ b ∈ bytes, b < 256) →
    b64_finish (bytes.foldl b64_step { i := 0, a0 := a0, a1 := a1, a2 := a2, ret := r }) =
      r ++ rfc4648Base64 bytes := by
  induction bytes using rfc4648Base64.induct with
  | case1 =>
    intro r a0 a1 a2 _
    simp [b64_finish, rfc4648Base64]
  | case2 a =>
    intro r a0 a1 a2 hb
    have ha : a < 256 := hb a (by simp)
    simp only [List.foldl, b64_step_zero, Nat.mod_eq_of_lt ha]
    exact b64_finish_one r a a1 a2 ha
  | case3 a b =>
    intro r a0 a1 a2 hb
    have ha : a < 256 := hb a (by simp)
    have hb' : b < 256 := hb b (by simp)
    simp only [List.foldl, b64_step_zero, b64_step_one, Nat.mod_eq_of_lt ha,
      Nat.mod_eq_of_lt hb']
    exact b64_finish_two r a b a2 ha hb'
  | case4 a b c rest ih =>
    intro r a0 a1 a2 hb
    have ha : a < 256 := hb a (by simp)
    have hb' : b < 256 := hb b (by simp)
    have hc : c < 256 := hb c (by simp)
    simp only [List.foldl, b64_step_zero, b64_step_one, b64_step_two, Nat.mod_eq_of_lt ha,
      Nat.mod_eq_of_lt hb', Nat.mod_eq_of_lt hc]
    rw [ih _ a b c (fun x hx => hb x (by simp [hx])), char_array_4_eq a b c ha hb' hc]
    simp only [List.map, b64_char_eq _ (sextet_lt _), rfc4648Base64]
    simp

/-- The function `b64_encode` computes the padded base 64 encoding of RFC 4648. -/
theorem b64_encode_eq_rfc4648 (bytes : List Nat) (hb : ∀ b ∈ bytes, b < 256) :
    b64_encode bytes = rfc4648Base64 bytes := by
  have := b64_fold bytes [] 0 0 0 hb
  simpa [b64_encode] using this


/-- Every index `b64_encode` reads `base64_chars` at is below 64. -/
theorem b64_index_lt (a b c : Nat) (ha : a < 256) (hb : b < 256) (hc : c < 256) :
    ∀ v ∈ char_array_4 a b c, v < 64 := by
  intro v hv
  rw [char_array_4_eq a b c ha hb hc] at hv
  simp only [List.mem_cons, List.mem_singleton, List.not_mem_nil, or_false] at hv
  rcases hv with h | h | h | h <;> rw [h] <;> exact sextet_lt _

/-! ## The parameter-set string of `Init` -/

theorem naluType_cons (b : Nat) (rest : List Nat) : naluType (b :: rest) = some (b % 32) := by
  simp only [naluType, List.getElem?_cons_zero]
  congr 1
  exact Nat.and_pow_two_sub_one_eq_mod b 5

theorem Init_nalu_other (acc : List Char × List Event) (nalu : List Nat)
    (h : ∃ t, naluType nalu = some t ∧ t ≠ OBS_NAL_SPS ∧ t ≠ OBS_NAL_PPS) :
    Init_nalu acc nalu = .ok acc := by
  obtain ⟨t, ht, h7, h8⟩ := h
  simp [Init_nalu, ht, h7, h8]

theorem Init_nalus_others : ∀ (nalus : List (List Nat)) (acc : List Char × List Event),
    (∀ u ∈ nalus, ∃ t, naluType u = some t ∧ t ≠ OBS_NAL_SPS ∧ t ≠ OBS_NAL_PPS) →
    Init_nalus nalus acc = .ok acc := by
  intro nalus
  induction nalus with
  | nil => intro acc _; rfl
  | cons u rest ih =>
    intro acc h
    simp only [Init_nalus, Init_nalu_other acc u (h u (List.mem_cons_self _ _))]
    exact ih acc (fun v hv => h v (List.mem_cons_of_mem _ hv))

theorem Init_nalus_append : ∀ (l1 l2 : List (List Nat)) (acc acc1 : List Char × List Event),
    Init_nalus l1 acc = .ok acc1 → Init_nalus (l1 ++ l2) acc = Init_nalus l2 acc1 := by
  intro l1
  induction l1 with
  | nil =>
    intro l2 acc acc1 h
    simp only [Init_nalus] at h
    cases h
    rfl
  | cons u rest ih =>
    intro l2 acc acc1 h
    simp only [Init_nalus, List.cons_append] at h ⊢
    rcases hu : Init_nalu acc u with e | acc2
    · rw [hu] at h; cases h
    · rw [hu] at h
      exact ih l2 acc2 acc1 h

theorem Init_nalus_cons (u : List Nat) (rest : List (List Nat))
    (acc acc1 : List Char × List Event) (h : Init_nalu acc u = .ok acc1) :
    Init_nalus (u :: rest) acc = Init_nalus rest acc1 := by
  simp only [Init_nalus, h]

/-- The loop of `Init` over units with one SPS followed later by one PPS. -/
theorem Init_nalus_sps_pps (pre mid post : List (List Nat)) (sps pps : List Nat)
    (acc : List Char × List Event)
    (hsps : naluType sps = some OBS_NAL_SPS) (hpps : naluType pps = some OBS_NAL_PPS)
    (hothers : ∀ u ∈ pre ++ mid ++ post,
      ∃ t, naluType u = some t ∧ t ≠ OBS_NAL_SPS ∧ t ≠ OBS_NAL_PPS) :
    ∃ evs, Init_nalus (pre ++ [sps] ++ mid ++ [pps] ++ post) acc =
      .ok ("sprop-parameter-sets=".toList ++ b64_encode sps ++ ",".toList ++ b64_encode pps ++
        ";".toList, evs) := by
  have hne : OBS_NAL_PPS ≠ OBS_NAL_SPS := by decide
  have h1 := Init_nalus_others pre acc (fun u hu => hothers u (by simp [hu]))
  have h2 : Init_nalu acc sps = .ok ("sprop-parameter-sets=".toList ++ b64_encode sps ++
      ",".toList, acc.2 ++ [.do_log .LOG_DEBUG "SPS NALU found!" [],
        .do_log .LOG_DEBUG "SPS Base64 encoded: %s" [.str (b64_encode sps)]]) := by
    simp [Init_nalu, hsps]
  have h3 := Init_nalus_others mid ("sprop-parameter-sets=".toList ++ b64_encode sps ++
      ",".toList, acc.2 ++ [.do_log .LOG_DEBUG "SPS NALU found!" [],
        .do_log .LOG_DEBUG "SPS Base64 encoded: %s" [.str (b64_encode sps)]])
    (fun u hu => hothers u (by simp [hu]))
  have h4 : Init_nalu ("sprop-parameter-sets=".toList ++ b64_encode sps ++
      ",".toList, acc.2 ++ [.do_log .LOG_DEBUG "SPS NALU found!" [],
        .do_log .LOG_DEBUG "SPS Base64 encoded: %s" [.str (b64_encode sps)]]) pps =
      .ok ("sprop-parameter-sets=".toList ++ b64_encode sps ++ ",".toList ++ b64_encode pps ++
        ";".toList, acc.2 ++ [.do_log .LOG_DEBUG "SPS NALU found!" [],
          .do_log .LOG_DEBUG "SPS Base64 encoded: %s" [.str (b64_encode sps)]] ++
        [.do_log .LOG_DEBUG "PPS NALU found!" [],
          .do_log .LOG_DEBUG "PPS Base64 encoded: %s" [.str (b64_encode pps)]]) := by
    simp [Init_nalu, hpps, hne]
  have h5 := Init_nalus_others post ("sprop-parameter-sets=".toList ++ b64_encode sps ++
      ",".toList ++ b64_encode pps ++ ";".toList,
      acc.2 ++ [.do_log .LOG_DEBUG "SPS NALU found!" [],
          .do_log .LOG_DEBUG "SPS Base64 encoded: %s" [.str (b64_encode sps)]] ++
        [.do_log .LOG_DEBUG "PPS NALU found!" [],
          .do_log .LOG_DEBUG "PPS Base64 encoded: %s" [.str (b64_encode pps)]])
    (fun u hu => hothers u (by simp [hu]))
  have hshape : pre ++ [sps] ++ mid ++ [pps] ++ post = pre ++ (sps :: (mid ++ (pps :: post))) := by
    simp
  rw [hshape, Init_nalus_append pre _ acc acc h1, Init_nalus_cons sps _ acc _ h2,
    Init_nalus_append mid _ _ _ h3, Init_nalus_cons pps _ _ _ h4, h5]
  exact ⟨_, rfl⟩


/-- **C9.** The parameter-set string built by `Init`, for a session with a service, an
endpoint URL, a video encoder with extra data `header`, and `sprop_parameter_sets` empty.
A unit is classified by the low five bits of its first byte, 7 for an SPS and 8 for a PPS.
When the parsed units are one SPS, later one PPS, and units of other types anywhere, `Init`
succeeds and the string is `sprop-parameter-sets=` followed by the RFC 4648 base 64 encoding
of the SPS, a comma, the encoding of the PPS and a semicolon. When the parsed units contain
neither an SPS nor a PPS, `Init` succeeds and the string stays empty. -/
theorem Init_sprop_parameter_sets (env : Env) (st : WHIPOutput) (s : Service)
    (header : List Nat) (hs : env.service = some s) (hurl : s.server_url ≠ [])
    (henc : env.video_encoder = some (some header)) (h0 : st.sprop_parameter_sets = []) :
    (∀ b rest, naluType (b :: rest) = some (b % 32)) ∧ OBS_NAL_SPS = 7 ∧ OBS_NAL_PPS = 8 ∧
    (∀ pre mid post sps pps, parse_h264_nals header = .ok (pre ++ [sps] ++ mid ++ [pps] ++ post) →
      naluType sps = some 7 → naluType pps = some 8 →
      (∀ u ∈ pre ++ mid ++ post, ∃ t, naluType u = some t ∧ t ≠ 7 ∧ t ≠ 8) →
      (∀ b ∈ sps ++ pps, b < 256) →
      ∃ st1 evs, Init env st = .ok (true, st1, evs) ∧
        st1.sprop_parameter_sets = "sprop-parameter-sets=".toList ++ rfc4648Base64 sps ++
          ",".toList ++ rfc4648Base64 pps ++ ";".toList) ∧
    (∀ nalus, parse_h264_nals header = .ok nalus →
      (∀ u ∈ nalus, ∃ t, naluType u = some t ∧ t ≠ 7 ∧ t ≠ 8) →
      ∃ st1 evs, Init env st = .ok (true, st1, evs) ∧ st1.sprop_parameter_sets = []) := by
  refine ⟨naluType_cons, rfl, rfl, ?_, ?_⟩
  · intro pre mid post sps pps hparse hsps hpps hothers hbytes
    obtain ⟨evs, hloop⟩ := Init_nalus_sps_pps pre mid post sps pps (st.sprop_parameter_sets, [])
      hsps hpps hothers
    rw [b64_encode_eq_rfc4648 sps (fun b hb => hbytes b (by simp [hb])),
      b64_encode_eq_rfc4648 pps (fun b hb => hbytes b (by simp [hb]))] at hloop
    have hne : ("sprop-parameter-sets=".toList ++ rfc4648Base64 sps ++ ",".toList ++
        rfc4648Base64 pps ++ ";".toList) ≠ [] := by
      intro h
      have := congrArg List.length h
      simp at this
    have hInit : Init env st = .ok (true,
        { ({ ({ st with endpoint_url := s.server_url } : WHIPOutput) with
              bearer_token := s.bearer_token } : WHIPOutput) with
            sprop_parameter_sets := "sprop-parameter-sets=".toList ++ rfc4648Base64 sps ++
              ",".toList ++ rfc4648Base64 pps ++ ";".toList },
        [Event.do_log .LOG_INFO "Got video encoder" []] ++
          (evs ++ [.do_log .LOG_INFO "Parameter set: %s"
            [.str ("sprop-parameter-sets=".toList ++ rfc4648Base64 sps ++
              ",".toList ++ rfc4648Base64 pps ++ ";".toList)]])) := by
      simp only [Init, hs, hurl, henc, Init_extra_data, hparse, hloop, hne, if_false]
    exact ⟨_, _, hInit, rfl⟩
  · intro nalus hparse hothers
    have hloop := Init_nalus_others nalus (st.sprop_parameter_sets, []) hothers
    rw [h0] at hloop
    have hInit : Init env st = .ok (true,
        { ({ ({ st with endpoint_url := s.server_url } : WHIPOutput) with
              bearer_token := s.bearer_token } : WHIPOutput) with
            sprop_parameter_sets := [] },
        [Event.do_log .LOG_INFO "Got video encoder" []] ++
          ([] ++ [.do_log .LOG_DEBUG "No h264 critical data available" []])) := by
      simp only [Init, hs, hurl, henc, Init_extra_data, hparse, hloop, h0, if_true, if_false]
    exact ⟨_, _, hInit, rfl⟩

/-- Witness of C9: an encoder whose extra data holds an SPS and a PPS behind four-byte start
codes. -/
theorem Init_sprop_parameter_sets_witness :
    ∃ st1 evs, Init { sampleEnv with video_encoder := some (some
        [0, 0, 0, 1, 0x67, 0x42, 0xc0, 0x1f, 0, 0, 0, 1, 0x68, 0xce, 0x06, 0xe2]) }
        WHIPOutput.fresh = .ok (true, st1, evs) ∧
      st1.sprop_parameter_sets = "sprop-parameter-sets=Z0LAHw==,aM4G4g==;".toList := by
  obtain ⟨st1, evs, h1, h2⟩ := (Init_sprop_parameter_sets
    { sampleEnv with video_encoder := some (some
        [0, 0, 0, 1, 0x67, 0x42, 0xc0, 0x1f, 0, 0, 0, 1, 0x68, 0xce, 0x06, 0xe2]) }
    WHIPOutput.fresh _ _ rfl (by decide) rfl rfl).2.2.2.1 [] [] []
    [0x67, 0x42, 0xc0, 0x1f] [0x68, 0xce, 0x06, 0xe2] (by decide) (by decide) (by decide)
    (by decide) (by decide)
  exact ⟨st1, evs, h1, by rw [h2]; decide⟩

/-! ## Units are never empty -/

theorem readByte_ok_lt (data : List Nat) (i b : Nat) (h : readByte data i = .ok b) :
    i < data.length := by
  unfold readByte at h
  rcases hd : data[i]? with _ | c
  · rw [hd] at h; cases h
  · exact (List.getElem?_eq_some_iff.mp hd).1

theorem nalRange_ne_nil (data : List Nat) (start current : Nat) (h1 : start < current)
    (h2 : current ≤ data.length) : nalRange data start current ≠ [] := by
  intro h
  have := congrArg List.length h
  simp [nalRange] at this
  omega

theorem parseStep_inv (data : List Nat) (st st1 : ParseState)
    (h : parseStep data st = .ok st1) (hlt : st.current < data.length)
    (hinv : ParseInv data st) : ParseInv data st1 := by
  obtain ⟨hc, hs, hn⟩ := hinv
  unfold parseStep at h
  rcases hsc : isStartCode data st.current with e | b
  · rw [hsc] at h; cases h
  · cases b
    · rw [hsc] at h
      cases h
      refine ⟨by simp; omega, ?_, hn⟩
      simp only []
      rcases hs with hs | ⟨hs, _⟩
      · left; omega
      · left; omega
    · rw [hsc] at h
      simp only [] at h
      rcases h2 : readByte data (st.current + 2) with e | c2
      · rw [h2] at h; cases h
      rcases h3 : readByte data (st.current + 3) with e | c3
      · rw [h2, h3] at h; cases h
      rw [h2, h3] at h
      simp only [] at h
      cases h
      have h3lt := readByte_ok_lt _ _ _ h3
      refine ⟨?_, ?_, ?_⟩
      · simp only []
        split <;> omega
      · simp only []
        by_cases hc2 : c2 = 0 <;> by_cases hc3 : c3 = 0 <;> (simp [hc2, hc3]; try omega)
      · simp only []
        split
        · rename_i hlt2
          intro u hu
          rcases List.mem_append.mp hu with hu | hu
          · exact hn u hu
          · simp at hu
            rw [hu]
            exact nalRange_ne_nil data _ _ hlt2 hc
        · exact hn

theorem parseLoop_inv (data : List Nat) : ∀ (fuel : Nat) (st st1 : ParseState),
    parseLoop data fuel st = .ok st1 → ParseInv data st →
    ParseInv data st1 ∧ ¬ st1.current < data.length := by
  intro fuel
  induction fuel with
  | zero =>
    intro st st1 h hinv
    unfold parseLoop at h
    split at h
    · cases h
    · rename_i hlt
      cases h
      exact ⟨hinv, hlt⟩
  | succ fuel ih =>
    intro st st1 h hinv
    unfold parseLoop at h
    split at h
    · rename_i hlt
      rcases hs : parseStep data st with e | st2
      · rw [hs] at h; cases h
      · rw [hs] at h
        exact ih st2 st1 h (parseStep_inv data st st2 hs hlt hinv)
    · rename_i hlt
      cases h
      exact ⟨hinv, hlt⟩

theorem parseFinish_inv (data : List Nat) (st : ParseState) (hinv : ParseInv data st)
    (hexit : ¬ st.current < data.length) :
    ∃ nalus, parseFinish data st = .ok nalus ∧ ∀ u ∈ nalus, u ≠ [] := by
  obtain ⟨hc, hs, hn⟩ := hinv
  have hs' : st.start ≤ st.current := by
    rcases hs with hs | ⟨_, hs⟩
    · exact hs
    · exact absurd hs hexit
  unfold parseFinish
  by_cases heq : st.current = st.start
  · exact ⟨st.nalus, by simp [heq], hn⟩
  · have hlt : st.start < st.current := by omega
    refine ⟨st.nalus ++ [nalRange data st.start st.current], by simp [heq, hlt, hc], ?_⟩
    intro u hu
    rcases List.mem_append.mp hu with hu | hu
    · exact hn u hu
    · simp at hu
      rw [hu]
      exact nalRange_ne_nil data _ _ hlt hc

/-- Whenever the parser returns, every unit it returns is non-empty. -/
theorem parse_units_ne_nil (data : List Nat) (nalus : List (List Nat))
    (h : parse_h264_nals data = .ok nalus) : ∀ u ∈ nalus, u ≠ [] := by
  unfold parse_h264_nals at h
  rcases hl : parseLoop data data.length { start := 0, current := 0, nalus := [] } with e | st
  · rw [hl] at h; cases h
  · rw [hl] at h
    simp only [] at h
    have hinv := parseLoop_inv data _ _ st hl
      ⟨Nat.zero_le _, Or.inl (le_refl _), by intro u hu; simp at hu⟩
    obtain ⟨nalus2, h2, h3⟩ := parseFinish_inv data st hinv.1 hinv.2
    rw [h2] at h
    cases h
    exact h3


/-- The start-code test reads outside the buffer only when the buffer ends in `0x00`. -/
theorem isStartCode_ok (data : List Nat) (i : Nat) (hi : i < data.length)
    (hlast : data.getLast? ≠ some 0) : ∃ b, isStartCode data i = .ok b := by
  have hend : ∀ j, j < data.length → data.length ≤ j + 1 → data[j]? ≠ some 0 := by
    intro j hj1 hj2 h
    apply hlast
    rw [List.getLast?_eq_getElem?]
    have : data.length - 1 = j := by omega
    rw [this]; exact h
  unfold isStartCode readByte
  rcases h0 : data[i]? with _ | c0
  · exact absurd (List.getElem?_eq_none_iff.mp h0) (by omega)
  simp only []
  by_cases hc0 : c0 = 0
  swap
  · exact ⟨false, by simp [hc0]⟩
  subst hc0
  rcases h1 : data[i + 1]? with _ | c1
  · exact absurd h0 (hend i hi (List.getElem?_eq_none_iff.mp h1))
  have hi1 : i + 1 < data.length := (List.getElem?_eq_some_iff.mp h1).1
  simp only []
  by_cases hc1 : c1 = 0
  swap
  · exact ⟨false, by simp [hc1]⟩
  subst hc1
  rcases h2 : data[i + 2]? with _ | c2
  · exact absurd h1 (hend (i + 1) hi1 (List.getElem?_eq_none_iff.mp h2))
  have hi2 : i + 2 < data.length := (List.getElem?_eq_some_iff.mp h2).1
  simp only []
  by_cases hc2 : c2 = 1
  · exact ⟨true, by simp [hc2]⟩
  by_cases hc2' : c2 = 0
  swap
  · exact ⟨false, by simp [hc2, hc2']⟩
  subst hc2'
  rcases h3 : data[i + 3]? with _ | c3
  · exact absurd h2 (hend (i + 2) hi2 (List.getElem?_eq_none_iff.mp h3))
  · exact ⟨decide (c3 = 1), by simp⟩

/-- The bytes at a position where the start-code test succeeds. -/
theorem isStartCode_true_shape (data : List Nat) (i : Nat)
    (h : isStartCode data i = .ok true) :
    data[i]? = some 0 ∧ data[i + 1]? = some 0 ∧
      (data[i + 2]? = some 1 ∨ (data[i + 2]? = some 0 ∧ data[i + 3]? = some 1)) := by
  unfold isStartCode readByte at h
  rcases h0 : data[i]? with _ | c0 <;> simp only [h0] at h
  · cases h
  by_cases hc0 : c0 = 0
  swap
  · simp [hc0] at h
  subst hc0
  rcases h1 : data[i + 1]? with _ | c1 <;> simp only [h1] at h
  · simp at h
  by_cases hc1 : c1 = 0
  swap
  · simp [hc1] at h
  subst hc1
  rcases h2 : data[i + 2]? with _ | c2 <;> simp only [h2] at h
  · simp at h
  by_cases hc2 : c2 = 1
  · subst hc2; exact ⟨rfl, rfl, Or.inl rfl⟩
  by_cases hc2' : c2 = 0
  swap
  · simp [hc2, hc2'] at h
  subst hc2'
  rcases h3 : data[i + 3]? with _ | c3 <;> simp only [h3] at h
  · simp at h
  · simp at h
    subst h
    exact ⟨rfl, rfl, Or.inr ⟨rfl, rfl⟩⟩

/-- Three bytes `00 00 01` at the very end of the buffer are a suffix of it. -/
theorem suffix_of_last_three (data : List Nat) (i : Nat) (h0 : data[i]? = some 0)
    (h1 : data[i + 1]? = some 0) (h2 : data[i + 2]? = some 1) (hlen : data.length = i + 3) :
    [0, 0, 1] <:+ data := by
  refine ⟨data.take i, ?_⟩
  have hd : data.drop i = [0, 0, 1] := by
    apply List.ext_getElem?
    intro n
    rw [List.getElem?_drop]
    rcases n with _ | _ | _ | n
    · simpa using h0
    · simpa using h1
    · simpa using h2
    · simp
      omega
  rw [← hd, List.take_append_drop]

/-- An iteration reads outside the buffer only when the buffer ends in `0x00` or in the
three-byte start code. -/
theorem parseStep_ok (data : List Nat) (st : ParseState) (hlt : st.current < data.length)
    (hlast : data.getLast? ≠ some 0) (hsuf : ¬ [0, 0, 1] <:+ data) :
    ∃ st1, parseStep data st = .ok st1 := by
  obtain ⟨b, hb⟩ := isStartCode_ok data st.current hlt hlast
  unfold parseStep
  rw [hb]
  cases b
  · exact ⟨_, rfl⟩
  · simp only []
    obtain ⟨h0, h1, h23⟩ := isStartCode_true_shape data st.current hb
    have h2lt := isStartCode_true_current data st.current hb
    have h3lt : st.current + 3 < data.length := by
      rcases h23 with h2 | ⟨_, h3⟩
      · by_contra hge
        exact hsuf (suffix_of_last_three data st.current h0 h1 h2 (by omega))
      · exact (List.getElem?_eq_some_iff.mp h3).1
    have r2 : ∃ c2, readByte data (st.current + 2) = .ok c2 := by
      unfold readByte
      rw [List.getElem?_eq_getElem h2lt]
      exact ⟨_, rfl⟩
    have r3 : ∃ c3, readByte data (st.current + 3) = .ok c3 := by
      unfold readByte
      rw [List.getElem?_eq_getElem h3lt]
      exact ⟨_, rfl⟩
    obtain ⟨c2, hc2⟩ := r2
    obtain ⟨c3, hc3⟩ := r3
    rw [hc2, hc3]
    exact ⟨_, rfl⟩

theorem parseLoop_ok (data : List Nat) (hlast : data.getLast? ≠ some 0)
    (hsuf : ¬ [0, 0, 1] <:+ data) : ∀ (fuel : Nat) (st : ParseState),
    data.length ≤ st.current + fuel → ∃ st1, parseLoop data fuel st = .ok st1 := by
  intro fuel
  induction fuel with
  | zero =>
    intro st h
    have : ¬ st.current < data.length := by omega
    exact ⟨st, by simp [parseLoop, this]⟩
  | succ fuel ih =>
    intro st h
    unfold parseLoop
    by_cases hlt : st.current < data.length
    · obtain ⟨st1, hs⟩ := parseStep_ok data st hlt hlast hsuf
      have := parseStep_current_lt data st st1 hs
      simp only [hlt, if_true, hs]
      exact ih st1 (by omega)
    · exact ⟨st, by simp [hlt]⟩

/-- On a buffer that ends neither in `0x00` nor in a start code the parser returns. -/
theorem parse_ok_of_end (data : List Nat) (hlast : data.getLast? ≠ some 0)
    (hsuf : ¬ [0, 0, 1] <:+ data) : ∃ nalus, parse_h264_nals data = .ok nalus := by
  obtain ⟨st, hl⟩ := parseLoop_ok data hlast hsuf data.length
    { start := 0, current := 0, nalus := [] } (by simp)
  have hinv := parseLoop_inv data _ _ st hl
    ⟨Nat.zero_le _, Or.inl (le_refl _), by intro u hu; simp at hu⟩
  obtain ⟨nalus, h2, _⟩ := parseFinish_inv data st hinv.1 hinv.2
  exact ⟨nalus, by simp only [parse_h264_nals, hl, h2]⟩

/-- The loop of `Init` over non-empty units never reads outside a unit. -/
theorem Init_nalus_ok : ∀ (nalus : List (List Nat)) (acc : List Char × List Event),
    (∀ u ∈ nalus, u ≠ []) → ∃ r, Init_nalus nalus acc = .ok r := by
  intro nalus
  induction nalus with
  | nil => intro acc _; exact ⟨acc, rfl⟩
  | cons u rest ih =>
    intro acc h
    have hu : u ≠ [] := h u (List.mem_cons_self _ _)
    obtain ⟨b, w, rfl⟩ := List.exists_cons_of_ne_nil hu
    have hstep : ∃ acc1, Init_nalu acc (b :: w) = .ok acc1 := by
      unfold Init_nalu naluType
      simp only [List.getElem?_cons_zero]
      split
      · exact ⟨_, rfl⟩
      · split
        · exact ⟨_, rfl⟩
        · exact ⟨_, rfl⟩
    obtain ⟨acc1, h1⟩ := hstep
    simp only [Init_nalus, h1]
    exact ih acc1 (fun v hv => h v (List.mem_cons_of_mem _ hv))

/-- **C13.** Every unit that `parse_h264_nals` returns is non-empty, so that the first-byte
access `nalu[0] & 0x1F` of `Init` is in bounds on each of them and the loop of `Init` over
the units is free of faults; and on a buffer that ends neither in a `0x00` byte nor in a start
code the parser's reads stay inside the buffer, so that it does return its units. -/
theorem parse_h264_nals_units_nonempty (data : List Nat) :
    (∀ nalus, parse_h264_nals data = .ok nalus →
      (∀ u ∈ nalus, u ≠ [] ∧ ∃ t, naluType u = some t) ∧
      ∀ acc, ∃ r, Init_nalus nalus acc = .ok r) ∧
    (data.getLast? ≠ some 0 → ¬ EndsInStartCode data →
      ∃ nalus, parse_h264_nals data = .ok nalus) := by
  refine ⟨fun nalus h => ?_, fun hlast hend => ?_⟩
  · have hne := parse_units_ne_nil data nalus h
    refine ⟨fun u hu => ⟨hne u hu, ?_⟩, fun acc => Init_nalus_ok nalus acc hne⟩
    obtain ⟨b, w, rfl⟩ := List.exists_cons_of_ne_nil (hne u hu)
    exact ⟨b &&& 0x1F, by simp [naluType]⟩
  · exact parse_ok_of_end data hlast (fun hs => hend (Or.inl hs))

/-- A witness of C13: the buffer `00 00 01 67 42 00 00 01 68 CE` ends neither in `0x00` nor in
a start code, and its two units are not empty. -/
theorem parse_h264_nals_units_nonempty_witness :
    ([0, 0, 1, 0x67, 0x42, 0, 0, 1, 0x68, 0xCE] : List Nat).getLast? ≠ some 0 ∧
    ¬ EndsInStartCode [0, 0, 1, 0x67, 0x42, 0, 0, 1, 0x68, 0xCE] ∧
    parse_h264_nals [0, 0, 1, 0x67, 0x42, 0, 0, 1, 0x68, 0xCE] = .ok [[0x67, 0x42], [0x68, 0xCE]] ∧
    ∃ nalus, parse_h264_nals [0, 0, 1, 0x67, 0x42, 0, 0, 1, 0x68, 0xCE] = .ok nalus :=
  ⟨by decide, by decide, by decide,
    (parse_h264_nals_units_nonempty [0, 0, 1, 0x67, 0x42, 0, 0, 1, 0x68, 0xCE]).2
      (by decide) (by decide)⟩

/-! ## The header callback -/

theorem find_first_not_of_eq (chars : List Char) : ∀ s : List Char,
    find_first_not_of s chars =
      if (s.takeWhile (fun c => decide (c ∈ chars))).length < s.length
      then some (s.takeWhile (fun c => decide (c ∈ chars))).length else none := by
  intro s
  induction s with
  | nil => simp [find_first_not_of]
  | cons c rest ih =>
    unfold find_first_not_of
    by_cases hc : c ∈ chars
    · simp only [hc, if_true, ih, List.takeWhile_cons, decide_True, List.length_cons,
        Nat.add_lt_add_iff_right]
      by_cases hlt : (rest.takeWhile (fun c => decide (c ∈ chars))).length < rest.length
      · simp [hlt]
      · simp [hlt]
    · simp [hc]

theorem drop_length_takeWhile (p : Char → Bool) : ∀ s : List Char,
    s.drop (s.takeWhile p).length = s.dropWhile p := by
  intro s
  induction s with
  | nil => rfl
  | cons c rest ih =>
    by_cases hc : p c
    · simp [List.takeWhile_cons, List.dropWhile_cons, hc, ih]
    · simp [List.takeWhile_cons, List.dropWhile_cons, hc]

theorem mem_whitespace (c : Char) : decide (c ∈ " \n\r\t".toList) = isWhitespace c := by
  have h : " \n\r\t".toList = [' ', Char.ofNat 10, Char.ofNat 13, Char.ofNat 9] := by decide
  rw [h]
  simp only [isWhitespace, List.mem_cons, List.mem_singleton, List.not_mem_nil, or_false,
    Bool.decide_or, Bool.or_assoc]
  cases decide (c = ' ') <;> cases decide (c = Char.ofNat 9) <;>
    cases decide (c = Char.ofNat 13) <;> cases decide (c = Char.ofNat 10) <;> rfl

theorem mem_whitespace_fun :
    (fun c => decide (c ∈ " \n\r\t".toList)) = isWhitespace := funext mem_whitespace

/-- The function `trim_string` removes the leading and the trailing whitespace. -/
theorem trim_string_eq_strip (s : List Char) : trim_string s = strip s := by
  unfold trim_string strip find_last_not_of
  simp only [find_first_not_of_eq, mem_whitespace_fun]
  have h1 : (match (if (s.takeWhile isWhitespace).length < s.length
      then some (s.takeWhile isWhitespace).length else none) with
      | some n => erase s 0 n
      | none => []) = s.dropWhile isWhitespace := by
    split
    · next n hn =>
      split at hn
      · cases hn
        simp [erase, drop_length_takeWhile]
      · cases hn
    · next hn =>
      split at hn
      · cases hn
      · have hle := (List.takeWhile_sublist (l := s) isWhitespace).length_le
        have hlen : (s.takeWhile isWhitespace).length = s.length := by omega
        rw [← drop_length_takeWhile, hlen]
        simp
  rw [h1]
  generalize s.dropWhile isWhitespace = r
  have hr : r.rdropWhile isWhitespace
      = r.take (r.length - (r.reverse.takeWhile isWhitespace).length) := by
    rw [List.rdropWhile, ← drop_length_takeWhile, List.reverse_drop, List.reverse_reverse,
      List.length_reverse]
  have hle := (List.takeWhile_sublist (l := r.reverse) isWhitespace).length_le
  rw [List.length_reverse] at hle ⊢
  rw [hr]
  generalize (r.reverse.takeWhile isWhitespace).length = k at hle ⊢
  by_cases hlt : k < r.length
  · simp only [hlt, if_true]
    congr 1
    omega
  · simp only [hlt, if_false]
    congr 1
    omega

theorem toUpper_ne_colon (c : Char) (h : c ≠ ':') : c.toUpper ≠ ':' := by
  unfold Char.toUpper
  simp only []
  split
  · next hc =>
    have hc1 : 97 ≤ c.toNat := hc.1
    have hc2 : c.toNat ≤ 122 := hc.2
    generalize c.toNat = n at hc1 hc2
    interval_cases n <;> decide
  · exact h

theorem toUpper_eq_colon (c : Char) (h : c.toUpper = ':') : c = ':' := by
  by_contra hc
  exact toUpper_ne_colon c hc h

/-- The first ten characters of a line whose field name is `Location` in some mix of letter
case and whose value begins with a space. -/
theorem location_line_shape (data : List Char) (hname : IsLocation (fieldName data))
    (hval : (fieldValue data).head? = some ' ') :
    ∃ rest, data = fieldName data ++ ':' :: ' ' :: rest ∧ (fieldName data).length = 8 ∧
      fieldValue data = ' ' :: rest := by
  have hlen : (fieldName data).length = 8 := by
    have := congrArg List.length hname
    simpa using this
  have hsplit : data = fieldName data ++ data.dropWhile (fun c => c ≠ ':') :=
    (List.takeWhile_append_dropWhile _ data).symm
  unfold fieldValue at hval ⊢
  rcases hd : data.dropWhile (fun c => decide (c ≠ ':')) with _ | ⟨c, tl⟩
  · rw [hd] at hval; simp at hval
  · rw [hd] at hval hsplit
    have hc : c = ':' := by
      have := List.head_dropWhile_not (fun c => decide (c ≠ ':')) data
        (by rw [hd]; simp)
      simp only [hd, List.head_cons] at this
      simpa using this
    subst hc
    simp only [List.drop_one, List.tail_cons] at hval ⊢
    rcases tl with _ | ⟨d, rest⟩
    · simp at hval
    · simp only [List.head?_cons, Option.some.injEq] at hval
      subst hval
      exact ⟨rest, hsplit, hlen, rfl⟩

/-- A line on which the comparison of `curl_headerfunction` succeeds has the field name
`Location` in some mix of letter case. -/
theorem astrcmpi_n_location (data : List Char)
    (h : astrcmpi_n data "location: ".toList LOCATION_HEADER_LENGTH = 0) :
    IsLocation (fieldName data) := by
  unfold astrcmpi_n at h
  split at h
  · next heq =>
    have h2 : (List.map Char.toUpper (List.take LOCATION_HEADER_LENGTH "location: ".toList))
        = ['L', 'O', 'C', 'A', 'T', 'I', 'O', 'N', ':', ' '] := by decide
    rw [h2] at heq
    rcases data with _ | ⟨c0, _ | ⟨c1, _ | ⟨c2, _ | ⟨c3, _ | ⟨c4, _ | ⟨c5, _ | ⟨c6, _ | ⟨c7,
      _ | ⟨c8, _ | ⟨c9, rest⟩⟩⟩⟩⟩⟩⟩⟩⟩⟩ <;>
      simp [LOCATION_HEADER_LENGTH] at heq
    obtain ⟨h0, h1, h2, h3, h4, h5, h6, h7, h8, h9⟩ := heq
    have h8c := toUpper_eq_colon c8 h8
    subst h8c
    have ne : ∀ (c x : Char), c.toUpper = x → x ≠ ':' → c ≠ ':' := by
      intro c x hcx hx hc
      subst hc
      exact hx (hcx.symm.trans (by decide))
    have n0 := ne c0 _ h0 (by decide)
    have n1 := ne c1 _ h1 (by decide)
    have n2 := ne c2 _ h2 (by decide)
    have n3 := ne c3 _ h3 (by decide)
    have n4 := ne c4 _ h4 (by decide)
    have n5 := ne c5 _ h5 (by decide)
    have n6 := ne c6 _ h6 (by decide)
    have n7 := ne c7 _ h7 (by decide)
    unfold IsLocation fieldName
    simp [List.takeWhile_cons, n0, n1, n2, n3, n4, n5, n6, n7, h0, h1, h2, h3, h4, h5, h6, h7]
  · simp at h

/-- **C11.** The header callback `curl_headerfunction`, called on a whole header line of
`size * nmemb` characters: it reports `size * nmemb` as consumed whatever the line is; on a
line whose field name is `Location` in some mix of letter case and whose value begins with a
space it leaves, starting from an empty capture buffer, the value without its leading and
trailing whitespace (space, tab, CR, LF); and on a line with a different field name it leaves
the capture buffer as it was. -/
theorem curl_headerfunction_location (data : List Char) (size nmemb : Nat)
    (hlen : data.length = size * nmemb) (hsz : size * nmemb < 2 ^ 64) :
    (∀ buf, (curl_headerfunction data size nmemb buf).1 = size * nmemb) ∧
    (IsLocation (fieldName data) → (fieldValue data).head? = some ' ' →
      (curl_headerfunction data size nmemb []).2 = strip (fieldValue data)) ∧
    (¬ IsLocation (fieldName data) →
      ∀ buf, (curl_headerfunction data size nmemb buf).2 = buf) := by
  have hmod : size * nmemb % 2 ^ 64 = size * nmemb := Nat.mod_eq_of_lt hsz
  refine ⟨fun buf => ?_, fun hname hval => ?_, fun hname buf => ?_⟩
  · unfold curl_headerfunction
    simp only [hmod]
    split
    · rfl
    · split <;> rfl
  · obtain ⟨rest, hdata, hn, hv⟩ := location_line_shape data hname hval
    generalize fieldName data = nm at hdata hn hname
    have htake : data.take 10 = nm ++ [':', ' '] := by
      rw [hdata, List.take_append_eq_append_take, hn, List.take_of_length_le (by omega)]
      rfl
    have hdrop : data.drop 10 = rest := by
      rw [hdata, List.drop_append_eq_append_drop, hn, List.drop_of_length_le (by omega)]
      rfl
    have hlen10 : 10 ≤ data.length := by
      rw [hdata]; simp [hn]; omega
    have hcmp : astrcmpi_n data "location: ".toList LOCATION_HEADER_LENGTH = 0 := by
      unfold astrcmpi_n LOCATION_HEADER_LENGTH
      rw [htake, List.map_append, hname]
      decide
    unfold curl_headerfunction
    simp only [hmod, hcmp, if_true]
    have hnlt : ¬ size * nmemb < LOCATION_HEADER_LENGTH := by
      unfold LOCATION_HEADER_LENGTH; omega
    simp only [hnlt, if_false, LOCATION_HEADER_LENGTH, hdrop, List.nil_append]
    have hrl : rest.length = size * nmemb - 10 := by
      rw [← hdrop, List.length_drop, hlen]
    rw [← hrl, List.take_length, trim_string_eq_strip, hv]
    have hnlt2 : ¬ size * nmemb < 10 := by omega
    simp [strip, List.dropWhile_cons, isWhitespace, hnlt2]
  · unfold curl_headerfunction
    simp only [hmod]
    split
    · rfl
    · split
      · next hcmp => exact absurd (astrcmpi_n_location data hcmp) hname
      · rfl

/-- A witness of C11: the line `lOcAtIoN:   /resource/abc \r\n` leaves `/resource/abc`. -/
theorem curl_headerfunction_location_witness :
    IsLocation (fieldName "lOcAtIoN:   /resource/abc \r\n".toList) ∧
    (fieldValue "lOcAtIoN:   /resource/abc \r\n".toList).head? = some ' ' ∧
    (curl_headerfunction "lOcAtIoN:   /resource/abc \r\n".toList 1 28 []).2
      = "/resource/abc".toList ∧
    (curl_headerfunction "lOcAtIoN:   /resource/abc \r\n".toList 1 28 []).2
      = strip (fieldValue "lOcAtIoN:   /resource/abc \r\n".toList) :=
  ⟨by decide, by decide, by decide,
    (curl_headerfunction_location "lOcAtIoN:   /resource/abc \r\n".toList 1 28
      (by decide) (by decide)).2.1 (by decide) (by decide)⟩

/-- A counterexample to C11 as stated: the line `Location:/x\r\n`, whose field name is
`Location` and whose value without its whitespace is `/x`, is reported as consumed but
leaves the empty capture buffer empty, because the callback compares the ten characters
`location: `, the space included. -/
theorem curl_headerfunction_location_counterexample :
    IsLocation (fieldName "Location:/x\r\n".toList) ∧
    strip (fieldValue "Location:/x\r\n".toList) = "/x".toList ∧
    curl_headerfunction "Location:/x\r\n".toList 1 13 [] = (13, []) ∧
    (curl_headerfunction "Location:/x\r\n".toList 1 13 []).2
      ≠ strip (fieldValue "Location:/x\r\n".toList) := by
  decide

/-! ## The state a stop leaves -/

/-- Whatever the state of the session, when `StopThread` returns the transport handle is
released and the counters are zero. -/
theorem StopThread_final_state (signal : Bool) (del : HttpResult) (st : WHIPOutput) :
    (StopThread signal del st).1.peer_connection = -1 ∧
    (StopThread signal del st).1.total_bytes_sent = 0 ∧
    (StopThread signal del st).1.connect_time_ms = 0 ∧
    (StopThread signal del st).1.start_time_ns = 0 ∧
    (StopThread signal del st).1.last_audio_timestamp = 0 ∧
    (StopThread signal del st).1.last_video_timestamp = 0 := by
  have h1 : (StopThread_release st).1.peer_connection = -1 := by
    unfold StopThread_release
    by_cases h : st.peer_connection = -1 <;> simp [h]
  have h2 := (SendDelete_fields del (StopThread_release st).1).2.1
  have h3 : ∀ s : WHIPOutput, (StopThread_report signal s).1.peer_connection
      = s.peer_connection := by
    intro s
    unfold StopThread_report
    split <;> rfl
  refine ⟨?_, rfl, rfl, rfl, rfl, rfl⟩
  show (StopThread_report signal (SendDelete del (StopThread_release st).1).1).1.peer_connection
    = -1
  rw [h3, h2, h1]

end WHIP
